import Mathlib

/-!
# Biosensor and video acquisition core: shallow embedding and verified properties

The definitions below embed `shimmer_processor.cpp` and `webcam_processor.cpp`.
Floating-point `double` values are modelled by an arbitrary linearly ordered
field `K` (exact arithmetic); the theorems about the exponential coefficient
are stated at `K = ℝ`, concrete evaluations at `K = ℚ`.
-/

set_option linter.unusedSectionVars false

namespace Bucika

/-! ## Machine integers -/

/-- One element of a `std::vector<uint8_t>`. -/
abbrev Byte := Fin 256

/-- Conversion of an `int` value to `uint16_t` (reduction modulo 2^16). -/
def toUInt16 (n : Nat) : Nat := n % 65536

/-- Conversion of an `int` value to `int16_t` (two's complement narrowing). -/
def toInt16 (n : Nat) : Int :=
  if n % 65536 < 32768 then ((n % 65536 : Nat) : Int) else ((n % 65536 : Nat) : Int) - 65536

/-- Conversion of a `size_t` value to `int` (two's complement narrowing to 32 bits). -/
def toInt32 (n : Nat) : Int :=
  if n % 4294967296 < 2147483648 then ((n % 4294967296 : Nat) : Int)
  else ((n % 4294967296 : Nat) : Int) - 4294967296

/-- Increment of a `size_t` counter (`x++`), modulo 2^64. -/
def sizeSucc (n : Nat) : Nat := (n + 1) % 2 ^ 64

/-- The expression `(raw_data[hi] << 8) | raw_data[lo]`, evaluated in `int`. -/
def word (raw_data : List Byte) (lo hi : Nat) : Nat :=
  ((raw_data.getD hi 0).val <<< 8) ||| (raw_data.getD lo 0).val

/-- The little-endian two's-complement signed 16-bit integer of the byte pair
`lo`, `hi`, in the words of the specification:
`((lo + 256*hi + 32768) mod 65536) - 32768`. -/
def s16 (lo hi : Nat) : Int := ((lo + 256 * hi + 32768) % 65536 : Int) - 32768

/-- The clock readings one call observes: `now_us` is the microsecond count
since the epoch read by `get_high_precision_timestamp`, `elapsed_us` the
microsecond count between `start_time` and `end_time` in
`update_performance_metrics`. -/
structure Clock where
  now_us : Int
  elapsed_us : Int

namespace Shimmer

/-! ## `ShimmerProcessor` -/

/-- The struct `SensorReading`; `SensorReading{}` is `SensorReading.zero`. -/
structure SensorReading (K : Type) where
  timestamp : K
  gsr_value : K
  ppg_value : K
  accel_x : K
  accel_y : K
  accel_z : K
  gyro_x : K
  gyro_y : K
  gyro_z : K
  mag_x : K
  mag_y : K
  mag_z : K
  battery_level : K

/-- The struct `ProcessingConfig` of the biosensor processor. -/
structure ProcessingConfig (K : Type) where
  sampling_rate : K
  enable_filtering : Bool
  filter_cutoff : K
  enable_artifact_removal : Bool
  artifact_threshold : K

/-- The private fields of `ShimmerProcessor`. -/
structure State (K : Type) where
  config_ : ProcessingConfig K
  filter_coefficients_ : List K
  filter_state_ : List K
  total_processing_time_ms_ : K
  packets_processed_ : Nat

variable {K : Type} [LinearOrderedField K]

/-- Value-initialised reading `SensorReading reading{}`. -/
def SensorReading.zero : SensorReading K :=
  ⟨0, 0, 0, 0, 0, 0, 0, 0, 0, 0, 0, 0, 0⟩

/-- The default member initialisers of `ProcessingConfig`. -/
def ProcessingConfig.default : ProcessingConfig K :=
  { sampling_rate := 128
    enable_filtering := true
    filter_cutoff := 5
    enable_artifact_removal := true
    artifact_threshold := 100 }

/-- The call `v.resize(n, x)` of `std::vector`: existing elements are kept,
missing ones are filled with `x`. -/
def resize (v : List K) (n : Nat) (x : K) : List K :=
  v.take n ++ List.replicate (n - v.length) x

/-- The coefficient `alpha` computed in `initialize_filter`; `exp` is
`std::exp` and `pi` is `M_PI`. For `sampling_rate = 0` the double quotient
`filter_cutoff / nyquist` is infinite or NaN and has no value in `K`; every
claim below uses it at a non-zero sampling rate. -/
def filterAlpha (exp : K → K) (pi : K) (config : ProcessingConfig K) : K :=
  let nyquist := config.sampling_rate / 2
  let normalized_cutoff := config.filter_cutoff / nyquist
  exp (-2 * pi * normalized_cutoff)

/-- The method `initialize_filter`. -/
def initialize_filter (exp : K → K) (pi : K) (s : State K) : State K :=
  let alpha := filterAlpha exp pi s.config_
  { s with
    filter_coefficients_ := [1 - alpha, alpha]
    filter_state_ := resize s.filter_state_ 4 0 }

/-- The constructor `ShimmerProcessor()`. -/
def construct (exp : K → K) (pi : K) : State K :=
  initialize_filter exp pi
    { config_ := ProcessingConfig.default
      filter_coefficients_ := []
      filter_state_ := []
      total_processing_time_ms_ := 0
      packets_processed_ := 0 }

/-- The method `configure`. -/
def configure (exp : K → K) (pi : K) (config : ProcessingConfig K) (s : State K) : State K :=
  initialize_filter exp pi { s with config_ := config }

/-- The method `convert_gsr_raw_to_microsiemens`. For `raw_value = 0` the
voltage is zero: IEEE division gives `resistance = +inf` and
`conductance = 1000000 / +inf = 0`, which is the explicit first branch. -/
def convert_gsr_raw_to_microsiemens (raw_value : Nat) : K :=
  let voltage_range : K := 3
  let adc_resolution : K := 4096
  let voltage : K := ((raw_value : K) / adc_resolution) * voltage_range
  let conductance : K :=
    if voltage = 0 then 0
    else
      let resistance : K := 40000 / voltage
      1000000 / resistance
  max 0 (min 100 conductance)

/-- The method `get_high_precision_timestamp`. -/
def get_high_precision_timestamp (clk : Clock) : K := (clk.now_us : K) / 1000

/-- The method `update_performance_metrics`. -/
def update_performance_metrics (clk : Clock) (s : State K) : State K :=
  { s with
    total_processing_time_ms_ := s.total_processing_time_ms_ + (clk.elapsed_us : K) / 1000
    packets_processed_ := sizeSucc s.packets_processed_ }

/-- The method `process_raw_packet`. The identifier `mag_z_raw` read at line
84 has no declaration in the source; its value is the parameter `mag_z_raw`. -/
def process_raw_packet (clk : Clock) (mag_z_raw : Int) (raw_data : List Byte) (s : State K) :
    SensorReading K × State K :=
  if raw_data.length < 20 then
    ({ (SensorReading.zero : SensorReading K) with timestamp := get_high_precision_timestamp clk },
      update_performance_metrics clk s)
  else
    let gsr_raw : Nat := toUInt16 (word raw_data 0 1)
    let ppg_raw : Nat := toUInt16 (word raw_data 2 3)
    let accel_x_raw : Int := toInt16 (word raw_data 4 5)
    let accel_y_raw : Int := toInt16 (word raw_data 6 7)
    let accel_z_raw : Int := toInt16 (word raw_data 8 9)
    let gyro_x_raw : Int := toInt16 (word raw_data 10 11)
    let gyro_y_raw : Int := toInt16 (word raw_data 12 13)
    let gyro_z_raw : Int := toInt16 (word raw_data 14 15)
    let mag_x_raw : Int := toInt16 (word raw_data 16 17)
    let mag_y_raw : Int := toInt16 (word raw_data 18 19)
    let accel_scale : K := 4.0 / 65536.0 * 9.81
    let gyro_scale : K := 1000.0 / 65536.0
    let mag_scale : K := 8000.0 / 65536.0
    let gsr_value : K := convert_gsr_raw_to_microsiemens gsr_raw
    let reading : SensorReading K :=
      { timestamp := get_high_precision_timestamp clk
        gsr_value := gsr_value
        ppg_value := (ppg_raw : K) * 0.001
        accel_x := (accel_x_raw : K) * accel_scale
        accel_y := (accel_y_raw : K) * accel_scale
        accel_z := (accel_z_raw : K) * accel_scale
        gyro_x := (gyro_x_raw : K) * gyro_scale
        gyro_y := (gyro_y_raw : K) * gyro_scale
        gyro_z := (gyro_z_raw : K) * gyro_scale
        mag_x := (mag_x_raw : K) * mag_scale
        mag_y := (mag_y_raw : K) * mag_scale
        mag_z := (mag_z_raw : K) * mag_scale
        battery_level :=
          if raw_data.length > 20 then (((raw_data.getD 20 0).val : Nat) : K) else 100 }
    if s.config_.enable_filtering then
      let y : K := reading.gsr_value * s.filter_coefficients_.getD 0 0 +
        s.filter_state_.getD 1 0 * s.filter_coefficients_.getD 1 0
      let written : List K := s.filter_state_.set 0 y
      ({ reading with gsr_value := written.getD 0 0 },
        update_performance_metrics clk { s with filter_state_ := written.rotate 1 })
    else
      (reading, update_performance_metrics clk s)

/-- The loop of `process_batch`: packet number `i` of the batch observes the
clock readings `clk i` and the value `mag_z_raw i`. -/
def process_batch_loop (clk : Nat → Clock) (mag_z_raw : Nat → Int) :
    Nat → List (List Byte) → State K → List (SensorReading K) → List (SensorReading K) × State K
  | _, [], s, readings => (readings, s)
  | i, packet :: rest, s, readings =>
    let r := process_raw_packet (clk i) (mag_z_raw i) packet s
    process_batch_loop clk mag_z_raw (i + 1) rest r.2 (readings ++ [r.1])

/-- The method `process_batch`. -/
def process_batch (clk : Nat → Clock) (mag_z_raw : Nat → Int) (raw_packets : List (List Byte))
    (s : State K) : List (SensorReading K) × State K :=
  process_batch_loop clk mag_z_raw 0 raw_packets s []

/-- The loop of `apply_low_pass_filter` from index `i` on: `prev` is
`filtered[i-1]` and the list holds `signal[i], signal[i+1], ...`. -/
def low_pass_loop (alpha : K) : K → List K → List K
  | _, [] => []
  | prev, x :: rest =>
    let y := alpha * x + (1 - alpha) * prev
    y :: low_pass_loop alpha y rest

/-- The coefficient `alpha = dt / (dt + 1.0 / (2.0 * M_PI * cutoff_freq))` of
`apply_low_pass_filter`, with `dt = 1.0 / sampling_rate`, as the double
division computes it at a zero divisor; `none` stands for a double that is not
a real number (NaN or an infinity). For `sampling_rate = 0`, `dt` is infinite
and the quotient is NaN; for `2.0 * M_PI * cutoff_freq = 0` the inner quotient
is infinite and `alpha` is 0; for `dt + 1.0 / (...) = 0` the quotient is
infinite. -/
def lowPassAlpha (pi : K) (sampling_rate cutoff_freq : K) : Option K :=
  if sampling_rate = 0 then none
  else
    let dt : K := 1 / sampling_rate
    if 2 * pi * cutoff_freq = 0 then some 0
    else if dt + 1 / (2 * pi * cutoff_freq) = 0 then none
    else some (dt / (dt + 1 / (2 * pi * cutoff_freq)))

/-- The method `apply_low_pass_filter`; `pi` is `M_PI`. An element `none` of
the result stands for a double that is not a real number: with `alpha` NaN or
infinite every element after the first is NaN or infinite. -/
def apply_low_pass_filter (pi : K) (s : State K) (signal : List K) (cutoff_freq : K) :
    List (Option K) :=
  match signal with
  | [] => []
  | x :: rest =>
    match lowPassAlpha pi s.config_.sampling_rate cutoff_freq with
    | some alpha => (x :: low_pass_loop alpha x rest).map some
    | none => some x :: rest.map (fun _ => none)

/-- The loop of `remove_artifacts`: `remaining` iterations are left, the next
one at index `i`. An access outside `clean_signal` is undefined behaviour and
gives `none`. -/
def remove_artifacts_loop (artifact_threshold : K) : Nat → Nat → List K → Option (List K)
  | 0, _, clean_signal => some clean_signal
  | remaining + 1, i, clean_signal =>
    match clean_signal[i - 1]?, clean_signal[i]?, clean_signal[i + 1]? with
    | some left, some mid, some right =>
      let diff_before := abs (mid - left)
      let diff_after := abs (right - mid)
      if diff_before > artifact_threshold ∨ diff_after > artifact_threshold then
        remove_artifacts_loop artifact_threshold remaining (i + 1)
          (clean_signal.set i ((left + right) / 2))
      else
        remove_artifacts_loop artifact_threshold remaining (i + 1) clean_signal
    | _, _, _ => none

/-- The method `remove_artifacts`. The loop bound `clean_signal.size() - 1` is
computed in `size_t` (modulo 2^64); the loop runs for `i = 1, ..., bound - 1`. -/
def remove_artifacts (s : State K) (gsr_signal : List K) : Option (List K) :=
  if !s.config_.enable_artifact_removal then some gsr_signal
  else
    let bound : Nat := (gsr_signal.length + 2 ^ 64 - 1) % 2 ^ 64
    remove_artifacts_loop s.config_.artifact_threshold (bound - 1) 1 gsr_signal

/-- No adjacent difference of the signal exceeds the threshold:
`|t[j+1] - t[j]| <= thr` for every adjacent pair. -/
def AdjacentWithin (thr : K) (t : List K) : Prop :=
  ∀ (j : Nat) (h : j + 1 < t.length), abs (t[j + 1] - t[j]) ≤ thr

/-- The loop of the pristine-copy variant of artifact removal: `left` is the
unmodified left neighbour and the list holds the unmodified `s[i], s[i+1], ...`. -/
def pristine_loop (thr : K) : K → List K → List K
  | left, x :: y :: rest =>
    (if abs (x - left) > thr ∨ abs (y - x) > thr then (left + y) / 2 else x) ::
      pristine_loop thr x (y :: rest)
  | _, rest => rest

/-- The variant of artifact removal computed on a pristine copy, which the
specification contrasts with the sequential one: every interior element is
tested against, and replaced from, the unmodified input. -/
def remove_artifacts_pristine (thr : K) (gsr_signal : List K) : List K :=
  match gsr_signal with
  | [] => []
  | x :: rest => x :: pristine_loop thr x rest

/-- The readings and final state of `process_raw_packet` applied to the
packets in order, packet number `i + j` observing `clk (i + j)`. -/
def process_seq (clk : Nat → Clock) (mag_z_raw : Nat → Int) :
    Nat → List (List Byte) → State K → List (SensorReading K) × State K
  | _, [], s => ([], s)
  | i, packet :: rest, s =>
    let r := process_raw_packet (clk i) (mag_z_raw i) packet s
    let tail := process_seq clk mag_z_raw (i + 1) rest r.2
    (r.1 :: tail.1, tail.2)

/-- The GSR values `y_1, y_2, ...` returned for the packets of at least 20
bytes, in order; `readings` holds one reading per packet. -/
def longValues (raw_packets : List (List Byte)) (readings : List (SensorReading K)) : List K :=
  ((raw_packets.zip readings).filter (fun pr => decide (20 ≤ pr.1.length))).map
    (fun pr => pr.2.gsr_value)

/-- The converted GSR values `g_1, g_2, ...` of the packets of at least 20
bytes, in order. -/
def convertedValues (raw_packets : List (List Byte)) : List K :=
  (raw_packets.filter (fun packet => decide (20 ≤ packet.length))).map
    (fun packet => convert_gsr_raw_to_microsiemens (toUInt16 (word packet 0 1)))

/-- The recurrence `y = (1 - alpha) * g + alpha * (output three readings
earlier)`, started with `p1, p2, p3` as the three previous outputs. -/
def lagThree (alpha : K) : K → K → K → List K → List K
  | _, _, _, [] => []
  | p1, p2, p3, g :: gs =>
    let y := (1 - alpha) * g + alpha * p1
    y :: lagThree alpha p2 p3 y gs

/-- The method `get_average_processing_time_ms`. -/
def get_average_processing_time_ms (s : State K) : K :=
  if s.packets_processed_ > 0 then s.total_processing_time_ms_ / (s.packets_processed_ : K) else 0

/-- The method `get_packets_processed`. -/
def get_packets_processed (s : State K) : Nat := s.packets_processed_

/-- The method `reset_performance_counters`. -/
def reset_performance_counters (s : State K) : State K :=
  { s with total_processing_time_ms_ := 0, packets_processed_ := 0 }

/-- A public call that can change the processor: the three calls that touch
the configuration or the filter. -/
inductive Op (K : Type) where
  | configure (config : ProcessingConfig K)
  | process_raw_packet (clk : Clock) (mag_z_raw : Int) (raw_data : List Byte)
  | process_batch (clk : Nat → Clock) (mag_z_raw : Nat → Int) (raw_packets : List (List Byte))

/-- The processor after one call. -/
def step (exp : K → K) (pi : K) (s : State K) : Op K → State K
  | .configure config => configure exp pi config s
  | .process_raw_packet clk mz raw_data => (process_raw_packet clk mz raw_data s).2
  | .process_batch clk mz raw_packets => (process_batch clk mz raw_packets s).2

/-- The processor after a sequence of calls on a freshly constructed one. -/
def run (exp : K → K) (pi : K) (ops : List (Op K)) : State K :=
  ops.foldl (step exp pi) (construct exp pi)

/-- The requirement of the configuration contract: a positive sampling rate
and a cutoff strictly between 0 and the Nyquist frequency. -/
def ValidConfig (config : ProcessingConfig K) : Prop :=
  0 < config.sampling_rate ∧ 0 < config.filter_cutoff ∧
    config.filter_cutoff < config.sampling_rate / 2

/-- Every configuration applied by a call sequence meets `ValidConfig`. -/
def ValidOps (ops : List (Op K)) : Prop :=
  ∀ config, Op.configure config ∈ ops → ValidConfig config

/-- The filter invariant: the coefficients are `[1 - alpha, alpha]` with
`alpha` in `[0,1]`, and the four state entries lie in `[0,100]`. -/
def FilterInv (s : State K) : Prop :=
  (∃ alpha : K, 0 ≤ alpha ∧ alpha ≤ 1 ∧ s.filter_coefficients_ = [1 - alpha, alpha]) ∧
    s.filter_state_.length = 4 ∧ ∀ x ∈ s.filter_state_, 0 ≤ x ∧ x ≤ 100

/-- A 20-byte packet whose raw GSR field (bytes 00 08, little-endian) is
2048, all other fields zero. -/
def gsrPacket : List Byte := [0, 8, 0, 0, 0, 0, 0, 0, 0, 0, 0, 0, 0, 0, 0, 0, 0, 0, 0, 0]

end Shimmer

namespace Webcam

/-! ## `WebcamProcessor` -/

/-- An 8-bit `cv::Mat`: dimensions, channel count and the pixel bytes in row
order. -/
structure Mat where
  rows : Nat
  cols : Nat
  channels : Nat
  data : List Nat
deriving DecidableEq

/-- The default-constructed `cv::Mat()`. -/
def Mat.nil : Mat := ⟨0, 0, 0, []⟩

/-- The method `cv::Mat::empty`: no data or no element. -/
def Mat.empty (m : Mat) : Bool := m.data.isEmpty || m.rows * m.cols == 0

/-- The struct `FrameData`. -/
structure FrameData (K : Type) where
  frame : Mat
  timestamp : K
  frame_number : Int
  is_valid : Bool

/-- The struct `ProcessingConfig` of the video engine; `color_space` is the
integer code of the `cv::ColorConversionCodes` value. -/
structure ProcessingConfig (K : Type) where
  width : Int
  height : Int
  fps : K
  enable_preprocessing : Bool
  enable_motion_detection : Bool
  motion_threshold : K
  color_space : Int

/-- The struct `PerformanceMetrics`; `processing_fps = none` stands for an
infinite double. -/
structure PerformanceMetrics (K : Type) where
  average_frame_time_ms : K
  processing_fps : Option K
  frames_processed : Nat
  frames_dropped : Nat
  cpu_usage_percent : K

/-- The capture device `cv::VideoCapture`: whether it is open, the properties
last set on it, and its read outcomes: read number `n` (counted from 0 over
the life of the device) gives `reads n`, the success flag and the frame. -/
structure VideoCapture (K : Type) where
  isOpened : Bool
  frame_width : Int
  frame_height : Int
  fps : K
  reads : Nat → Bool × Mat
  reads_done : Nat

/-- The private fields of `WebcamProcessor`. -/
structure State (K : Type) where
  camera_ : VideoCapture K
  config_ : ProcessingConfig K
  previous_frame_ : Mat
  motion_diff_ : Mat
  master_clock_offset_ms_ : K
  total_processing_time_ms_ : K
  frames_processed_ : Nat
  frames_dropped_ : Nat

/-- The OpenCV image operations called by the engine, which are not part of
the sources: `cvtColor src code`, `equalizeHist`, `GaussianBlur` with a 3x3
kernel and sigma 0.5, `split` and `merge`; `COLOR_BGR2BGR` and
`COLOR_BGR2GRAY` are the codes the source names. -/
structure Cv where
  cvtColor : Mat → Int → Mat
  equalizeHist : Mat → Mat
  gaussianBlur3 : Mat → Mat
  split : Mat → List Mat
  merge : List Mat → Mat
  COLOR_BGR2BGR : Int
  COLOR_BGR2GRAY : Int

/-- Modelled from the spec: OpenCV's `cv::absdiff` on 8-bit frames is not in
the sources; it is the absolute pixel-wise difference, of the size of its
arguments (which OpenCV requires to agree). -/
def absdiff (a b : Mat) : Mat :=
  { a with data := List.zipWith (fun x y => if x ≥ y then x - y else y - x) a.data b.data }

variable {K : Type} [LinearOrderedField K]

/-- Modelled from the spec: OpenCV's `cv::threshold` with `THRESH_BINARY` is
not in the sources; a pixel becomes `maxval` when it is strictly greater than
`thresh`, else 0. -/
def threshold (src : Mat) (thresh : K) (maxval : Nat) : Mat :=
  { src with data := src.data.map (fun (x : Nat) => if (x : K) > thresh then maxval else 0) }

/-- Modelled from the spec: OpenCV's `cv::countNonZero` is not in the sources;
it is the number of non-zero pixels. -/
def countNonZero (m : Mat) : Nat := m.data.countP (fun x => x != 0)

/-- The method `get_high_precision_timestamp`. -/
def get_high_precision_timestamp (clk : Clock) : K := (clk.now_us : K) / 1000

/-- The method `get_synchronized_timestamp`. -/
def get_synchronized_timestamp (clk : Clock) (s : State K) : K :=
  get_high_precision_timestamp clk + s.master_clock_offset_ms_

/-- The method `set_master_clock_offset`. -/
def set_master_clock_offset (offset_ms : K) (s : State K) : State K :=
  { s with master_clock_offset_ms_ := offset_ms }

/-- The method `update_performance_metrics`. -/
def update_performance_metrics (clk : Clock) (s : State K) : State K :=
  { s with
    total_processing_time_ms_ := s.total_processing_time_ms_ + (clk.elapsed_us : K) / 1000
    frames_processed_ := sizeSucc s.frames_processed_ }

/-- The constructor `WebcamProcessor()`: a closed device whose future read
outcomes are `reads`, and the default member initialisers of the
configuration (`COLOR_BGR2RGB` is the code `color_space`). -/
def construct (reads : Nat → Bool × Mat) (color_space : Int) : State K :=
  { camera_ :=
      { isOpened := false, frame_width := 0, frame_height := 0, fps := 0
        reads := reads, reads_done := 0 }
    config_ :=
      { width := 1920, height := 1080, fps := 30, enable_preprocessing := true
        enable_motion_detection := false, motion_threshold := 30, color_space := color_space }
    previous_frame_ := Mat.nil
    motion_diff_ := Mat.nil
    master_clock_offset_ms_ := 0
    total_processing_time_ms_ := 0
    frames_processed_ := 0
    frames_dropped_ := 0 }

/-- The method `release_camera`. -/
def release_camera (s : State K) : State K :=
  if s.camera_.isOpened then { s with camera_ := { s.camera_ with isOpened := false } } else s

/-- The method `initialize_motion_detection`. -/
def initialize_motion_detection (s : State K) : State K :=
  if s.config_.enable_motion_detection then
    { s with previous_frame_ := Mat.nil, motion_diff_ := Mat.nil }
  else s

/-- The three `camera_.set` calls forwarding the configured properties. -/
def set_camera_properties (s : State K) : State K :=
  { s with camera_ :=
      { s.camera_ with
        frame_width := s.config_.width
        frame_height := s.config_.height
        fps := s.config_.fps } }

/-- The method `initialize_camera` (both overloads); `opens` is whether
`camera_.open` succeeds. -/
def initialize_camera (opens : Bool) (s : State K) : Bool × State K :=
  let s1 := release_camera s
  let s2 := { s1 with camera_ := { s1.camera_ with isOpened := opens } }
  if !s2.camera_.isOpened then (false, s2)
  else (true, initialize_motion_detection (set_camera_properties s2))

/-- The method `is_camera_active`. -/
def is_camera_active (s : State K) : Bool := s.camera_.isOpened

/-- The method `configure`. -/
def configure (config : ProcessingConfig K) (s : State K) : State K :=
  let s1 := { s with config_ := config }
  if s1.camera_.isOpened then set_camera_properties s1 else s1

/-- The method `preprocess_frame`. -/
def preprocess_frame (cv : Cv) (s : State K) (input : Mat) : Mat :=
  let processed :=
    if s.config_.color_space != cv.COLOR_BGR2BGR then cv.cvtColor input s.config_.color_space
    else input
  let processed :=
    if processed.channels == 1 then cv.equalizeHist processed
    else if processed.channels == 3 then cv.merge ((cv.split processed).map cv.equalizeHist)
    else processed
  cv.gaussianBlur3 processed

/-- The method `detect_motion`; it writes the member `motion_diff_`. The
count returned by `countNonZero` and the product `rows * cols` are `int`
values (two's complement, 32 bits). When the product is 0 the double quotient
`(non_zero * 100.0) / 0` is `+inf` for a positive count, so the test `> 1.0`
holds, and NaN or `-inf` otherwise, so it fails. -/
def detect_motion (cv : Cv) (current_frame previous_frame : Mat) (s : State K) :
    Bool × State K :=
  if current_frame.empty || previous_frame.empty then (false, s)
  else
    let current_gray :=
      if current_frame.channels == 3 then cv.cvtColor current_frame cv.COLOR_BGR2GRAY
      else current_frame
    let prev_gray :=
      if previous_frame.channels == 3 then cv.cvtColor previous_frame cv.COLOR_BGR2GRAY
      else previous_frame
    let motion_diff := absdiff current_gray prev_gray
    let motion_diff := threshold motion_diff s.config_.motion_threshold 255
    let non_zero : Int := toInt32 (countNonZero motion_diff)
    let pixels : Int := toInt32 (motion_diff.rows * motion_diff.cols)
    let motion : Bool :=
      if pixels = 0 then decide (0 < non_zero)
      else decide (((non_zero : K) * 100) / (pixels : K) > 1)
    (motion, { s with motion_diff_ := motion_diff })

/-- The method `capture_frame`. -/
def capture_frame (cv : Cv) (clk : Clock) (s : State K) : FrameData K × State K :=
  let frame_data : FrameData K :=
    { frame := Mat.nil
      timestamp := get_synchronized_timestamp clk s
      frame_number := toInt32 s.frames_processed_
      is_valid := false }
  if !s.camera_.isOpened then
    (frame_data,
      update_performance_metrics clk { s with frames_dropped_ := sizeSucc s.frames_dropped_ })
  else
    let outcome := s.camera_.reads s.camera_.reads_done
    let success := outcome.1
    let raw_frame := outcome.2
    let s := { s with camera_ := { s.camera_ with reads_done := s.camera_.reads_done + 1 } }
    if !success || raw_frame.empty then
      (frame_data,
        update_performance_metrics clk { s with frames_dropped_ := sizeSucc s.frames_dropped_ })
    else
      let frame := if s.config_.enable_preprocessing then preprocess_frame cv s raw_frame
        else raw_frame
      let frame_data := { frame_data with frame := frame, is_valid := true }
      let s :=
        if s.config_.enable_motion_detection && !s.previous_frame_.empty then
          (detect_motion cv frame_data.frame s.previous_frame_ s).2
        else s
      let s :=
        if s.config_.enable_motion_detection then
          { s with previous_frame_ := cv.cvtColor frame_data.frame cv.COLOR_BGR2GRAY }
        else s
      (frame_data, update_performance_metrics clk s)

/-- The loop of `capture_batch`: `remaining` iterations are left, the next one
is iteration `i`, which observes the clock readings `clk i`. -/
def capture_batch_loop (cv : Cv) (clk : Nat → Clock) :
    Nat → Nat → State K → List (FrameData K) → List (FrameData K) × State K
  | 0, _, s, frames => (frames, s)
  | remaining + 1, i, s, frames =>
    let r := capture_frame cv (clk i) s
    let frame := r.1
    let frames := frames ++ [frame]
    if !frame.is_valid then (frames, r.2)
    else capture_batch_loop cv clk remaining (i + 1) r.2 frames

/-- The method `capture_batch`. `max_size` is the largest count for which
`frames.reserve(count)` returns: the vector's `max_size()`, a constant of the
standard library and platform that is not in the sources. Above it `reserve`
throws `std::length_error` before any capture, and the call gives `none`. -/
def capture_batch (cv : Cv) (max_size : Nat) (clk : Nat → Clock) (count : Nat) (s : State K) :
    Option (List (FrameData K) × State K) :=
  if count > max_size then none
  else some (capture_batch_loop cv clk count 0 s [])

/-- The records and final state of `k` successive `capture_frame` calls, the
first observing `clk i`, none skipped. -/
def capture_seq (cv : Cv) (clk : Nat → Clock) : Nat → Nat → State K →
    List (FrameData K) × State K
  | 0, _, s => ([], s)
  | k + 1, i, s =>
    let r := capture_frame cv (clk i) s
    let rest := capture_seq cv clk k (i + 1) r.2
    (r.1 :: rest.1, rest.2)

/-- The number of pixel positions whose absolute difference
`|current - previous|` is strictly greater than the threshold. -/
def changedPixels (thr : K) : List Nat → List Nat → Nat
  | c :: cs, p :: ps =>
    (if abs ((c : K) - (p : K)) > thr then 1 else 0) + changedPixels thr cs ps
  | _, _ => 0

/-- The method `get_performance_metrics`; `PerformanceMetrics metrics{}` is
all zero. With frames processed and a zero average the double quotient
`1000.0 / 0` is infinite. -/
def get_performance_metrics (s : State K) : PerformanceMetrics K :=
  let average : K :=
    if s.frames_processed_ > 0 then s.total_processing_time_ms_ / (s.frames_processed_ : K)
    else 0
  { average_frame_time_ms := average
    processing_fps :=
      if s.frames_processed_ > 0 then (if average = 0 then none else some (1000 / average))
      else some 0
    frames_processed := s.frames_processed_
    frames_dropped := s.frames_dropped_
    cpu_usage_percent := 0 }

/-- The method `reset_performance_counters`. -/
def reset_performance_counters (s : State K) : State K :=
  { s with total_processing_time_ms_ := 0, frames_processed_ := 0, frames_dropped_ := 0 }

/-- A public call on the video engine. -/
inductive Op (K : Type) where
  | initialize_camera (opens : Bool)
  | release_camera
  | configure (config : ProcessingConfig K)
  | capture_frame (clk : Clock)
  | capture_batch (clk : Nat → Clock) (count : Nat)
  | set_master_clock_offset (offset_ms : K)
  | get_performance_metrics
  | reset_performance_counters

/-- The records a call returns and the engine after it; a `capture_batch`
that throws returns no record and leaves the engine as it was. -/
def step (cv : Cv) (max_size : Nat) (s : State K) : Op K → List (FrameData K) × State K
  | .initialize_camera opens => ([], (initialize_camera opens s).2)
  | .release_camera => ([], release_camera s)
  | .configure config => ([], configure config s)
  | .capture_frame clk => ([(capture_frame cv clk s).1], (capture_frame cv clk s).2)
  | .capture_batch clk count =>
    match capture_batch cv max_size clk count s with
    | some r => r
    | none => ([], s)
  | .set_master_clock_offset offset_ms => ([], set_master_clock_offset offset_ms s)
  | .get_performance_metrics => ([], s)
  | .reset_performance_counters => ([], reset_performance_counters s)

/-- All records returned, in order, and the engine after a sequence of calls
on the engine `s`. -/
def run (cv : Cv) (max_size : Nat) (s : State K) (ops : List (Op K)) :
    List (FrameData K) × State K :=
  ops.foldl
    (fun acc op => ((acc.1 ++ (step cv max_size acc.2 op).1), (step cv max_size acc.2 op).2))
    ([], s)

/-- The largest number of captures a call can perform. -/
def captureCost : Op K → Nat
  | .capture_frame _ => 1
  | .capture_batch _ count => count
  | _ => 0

/-- The largest number of captures a sequence of calls can perform. -/
def captureBudget (ops : List (Op K)) : Nat := (ops.map captureCost).sum

/-- The failure condition of `capture_frame`: no active device, a failed read
or an empty frame. -/
def captureFails (s : State K) : Prop :=
  s.camera_.isOpened = false ∨ (s.camera_.reads s.camera_.reads_done).1 = false ∨
    (s.camera_.reads s.camera_.reads_done).2.empty = true

/-- OpenCV operations for concrete evaluations: conversions and filters that
leave a frame as it is. -/
def cvPlain : Cv :=
  { cvtColor := fun m _ => m
    equalizeHist := fun m => m
    gaussianBlur3 := fun m => m
    split := fun m => [m]
    merge := fun l => l.headD Mat.nil
    COLOR_BGR2BGR := 0
    COLOR_BGR2GRAY := 6 }

/-- An engine with an open device whose third read fails, all other reads
giving a 1x1 frame; preprocessing and motion detection are off. -/
def thirdReadFails : State ℚ :=
  { camera_ :=
      { isOpened := true, frame_width := 1, frame_height := 1, fps := 30
        reads := fun i => if i = 2 then (false, Mat.nil) else (true, ⟨1, 1, 1, [5]⟩)
        reads_done := 0 }
    config_ :=
      { width := 1, height := 1, fps := 30, enable_preprocessing := false
        enable_motion_detection := false, motion_threshold := 30, color_space := 4 }
    previous_frame_ := Mat.nil
    motion_diff_ := Mat.nil
    master_clock_offset_ms_ := 0
    total_processing_time_ms_ := 0
    frames_processed_ := 0
    frames_dropped_ := 0 }

/-- An engine whose configured motion_threshold is -1. -/
def negativeThreshold : State ℚ :=
  { thirdReadFails with
    config_ := { thirdReadFails.config_ with motion_threshold := -1 } }

/-- An engine with a closed device that has processed 2^31 - 1 frames. -/
def processedAtIntMax : State ℚ :=
  { thirdReadFails with
    camera_ := { thirdReadFails.camera_ with isOpened := false }
    frames_processed_ := 2 ^ 31 - 1
    frames_dropped_ := 2 ^ 31 - 1 }

end Webcam

/-! ## Lemmas on the machine-integer helpers -/

theorem word_eq (raw_data : List Byte) (lo hi : Nat) :
    word raw_data lo hi = (raw_data.getD lo 0).val + 256 * (raw_data.getD hi 0).val := by
  unfold word
  have h := Nat.mul_add_lt_is_or (i := 8) (raw_data.getD lo 0).isLt (raw_data.getD hi 0).val
  rw [Nat.shiftLeft_eq, Nat.mul_comm, ← h]
  norm_num
  ring

theorem word_lt (raw_data : List Byte) (lo hi : Nat) : word raw_data lo hi < 65536 := by
  rw [word_eq]
  have h1 := (raw_data.getD lo 0).isLt
  have h2 := (raw_data.getD hi 0).isLt
  omega

theorem toInt16_word (raw_data : List Byte) (lo hi : Nat) :
    toInt16 (word raw_data lo hi) = s16 (raw_data.getD lo 0).val (raw_data.getD hi 0).val := by
  rw [word_eq]
  unfold toInt16 s16
  have h1 := (raw_data.getD lo 0).isLt
  have h2 := (raw_data.getD hi 0).isLt
  split <;> omega

theorem toUInt16_word (raw_data : List Byte) (lo hi : Nat) :
    toUInt16 (word raw_data lo hi) = (raw_data.getD lo 0).val + 256 * (raw_data.getD hi 0).val := by
  unfold toUInt16
  rw [Nat.mod_eq_of_lt (word_lt raw_data lo hi), word_eq]

theorem sizeSucc_eq {n : Nat} (h : n + 1 < 2 ^ 64) : sizeSucc n = n + 1 := by
  unfold sizeSucc
  exact Nat.mod_eq_of_lt h

theorem toInt32_eq {n : Nat} (h : n < 2 ^ 31) : toInt32 n = (n : Int) := by
  unfold toInt32
  have h1 : n % 4294967296 = n := Nat.mod_eq_of_lt (by omega)
  rw [h1, if_pos (by omega)]

namespace Shimmer

/-! ## Lemmas on the biosensor processor -/

section Generic

variable {K : Type} [LinearOrderedField K]

theorem convert_gsr_nonneg (raw_value : Nat) :
    (0 : K) ≤ convert_gsr_raw_to_microsiemens raw_value := by
  unfold convert_gsr_raw_to_microsiemens
  exact le_max_left _ _

theorem convert_gsr_le (raw_value : Nat) :
    convert_gsr_raw_to_microsiemens raw_value ≤ (100 : K) := by
  unfold convert_gsr_raw_to_microsiemens
  exact max_le (by norm_num) (min_le_left _ _)

/-- The explicit zero-voltage branch agrees with the plain quotient
`1000000 / (40000 / voltage)` read with the field convention `x / 0 = 0`. -/
theorem convert_gsr_eq_quotient (raw_value : Nat) :
    (convert_gsr_raw_to_microsiemens raw_value : K) =
      max 0 (min 100 (1000000 / (40000 / (((raw_value : K) / 4096) * 3)))) := by
  unfold convert_gsr_raw_to_microsiemens
  by_cases h : ((raw_value : K) / 4096) * 3 = 0
  · simp [h]
  · simp [h]

theorem resize_length (v : List K) (n : Nat) (x : K) : (resize v n x).length = n := by
  unfold resize
  simp only [List.length_append, List.length_take, List.length_replicate]
  omega

theorem mem_resize {v : List K} {n : Nat} {x y : K} (h : y ∈ resize v n x) : y ∈ v ∨ y = x := by
  unfold resize at h
  rcases List.mem_append.mp h with h | h
  · exact Or.inl (List.mem_of_mem_take h)
  · exact Or.inr (List.mem_replicate.mp h).2

theorem resize_of_length {v : List K} {n : Nat} (x : K) (h : v.length = n) :
    resize v n x = v := by
  unfold resize
  simp [← h]

theorem convex_bounds {alpha g p : K} (ha0 : 0 ≤ alpha) (ha1 : alpha ≤ 1)
    (hg0 : 0 ≤ g) (hg1 : g ≤ 100) (hp0 : 0 ≤ p) (hp1 : p ≤ 100) :
    0 ≤ g * (1 - alpha) + p * alpha ∧ g * (1 - alpha) + p * alpha ≤ 100 := by
  have h1 : 0 ≤ 1 - alpha := by linarith
  constructor
  · positivity
  · nlinarith [mul_le_mul_of_nonneg_right hg1 h1, mul_le_mul_of_nonneg_right hp1 ha0]

theorem getD_bounds {l : List K} (h : ∀ x ∈ l, 0 ≤ x ∧ x ≤ 100) (i : Nat) :
    0 ≤ l.getD i 0 ∧ l.getD i 0 ≤ 100 := by
  by_cases hi : i < l.length
  · rw [List.getD_eq_getElem l 0 hi]
    exact h _ (List.getElem_mem hi)
  · rw [List.getD_eq_default l 0 (by omega)]
    norm_num

/-- Under the filter invariant a packet, long or short, gives a GSR value in
`[0,100]` and keeps the invariant. -/
theorem process_raw_packet_inv (clk : Clock) (mz : Int) (raw_data : List Byte) (s : State K)
    (hs : FilterInv s) :
    (0 ≤ (process_raw_packet clk mz raw_data s).1.gsr_value ∧
      (process_raw_packet clk mz raw_data s).1.gsr_value ≤ 100) ∧
      FilterInv (process_raw_packet clk mz raw_data s).2 := by
  obtain ⟨⟨alpha, ha0, ha1, hc⟩, hlen, hst⟩ := hs
  unfold process_raw_packet
  by_cases hshort : raw_data.length < 20
  · simp only [hshort, if_true]
    refine ⟨⟨le_of_eq rfl, ?_⟩, ⟨alpha, ha0, ha1, hc⟩, hlen, hst⟩
    show (0 : K) ≤ 100
    norm_num
  · simp only [hshort, if_false]
    by_cases hf : s.config_.enable_filtering = true
    · simp only [hf, if_true]
      have hy := convex_bounds ha0 ha1
        (convert_gsr_nonneg (K := K) (toUInt16 (word raw_data 0 1)))
        (convert_gsr_le (K := K) (toUInt16 (word raw_data 0 1)))
        (getD_bounds hst 1).1 (getD_bounds hst 1).2
      have hpos : 0 < s.filter_state_.length := by omega
      have hw : (s.filter_state_.set 0
          (convert_gsr_raw_to_microsiemens (toUInt16 (word raw_data 0 1)) *
              s.filter_coefficients_.getD 0 0 +
            s.filter_state_.getD 1 0 * s.filter_coefficients_.getD 1 0)).getD 0 0 =
          convert_gsr_raw_to_microsiemens (toUInt16 (word raw_data 0 1)) * (1 - alpha) +
            s.filter_state_.getD 1 0 * alpha := by
        rw [List.getD_eq_getElem _ 0 (by rw [List.length_set]; exact hpos)]
        simp [hc]
      refine ⟨?_, ⟨alpha, ha0, ha1, hc⟩, ?_, ?_⟩
      · show 0 ≤ List.getD _ 0 0 ∧ List.getD _ 0 0 ≤ 100
        rw [hw]
        exact hy
      · show (List.rotate _ 1).length = 4
        rw [List.length_rotate, List.length_set]
        exact hlen
      · intro x hx
        have hx1 : x ∈ List.rotate _ 1 := hx
        rw [List.mem_rotate] at hx1
        rcases List.mem_or_eq_of_mem_set hx1 with h | h
        · exact hst x h
        · rw [h, hc]
          simpa using hy
    · simp only [hf]
      exact ⟨⟨convert_gsr_nonneg _, convert_gsr_le _⟩, ⟨alpha, ha0, ha1, hc⟩, hlen, hst⟩

theorem process_batch_loop_inv (clk : Nat → Clock) (mz : Nat → Int)
    (raw_packets : List (List Byte)) :
    ∀ (i : Nat) (s : State K) (acc : List (SensorReading K)), FilterInv s →
      FilterInv (process_batch_loop clk mz i raw_packets s acc).2 := by
  induction raw_packets with
  | nil => intro i s acc hs; exact hs
  | cons packet rest ih =>
    intro i s acc hs
    unfold process_batch_loop
    exact ih _ _ _ (process_raw_packet_inv (clk i) (mz i) packet s hs).2

theorem initialize_filter_inv (exp : K → K) (pi : K) (s : State K)
    (ha : 0 ≤ filterAlpha exp pi s.config_ ∧ filterAlpha exp pi s.config_ ≤ 1)
    (hst : ∀ x ∈ s.filter_state_, 0 ≤ x ∧ x ≤ 100) :
    FilterInv (initialize_filter exp pi s) := by
  refine ⟨⟨filterAlpha exp pi s.config_, ha.1, ha.2, rfl⟩, resize_length _ _ _, ?_⟩
  intro x hx
  rcases mem_resize (show x ∈ resize s.filter_state_ 4 0 from hx) with h | h
  · exact hst x h
  · rw [h]; norm_num

/-- Every state reached from construction keeps the filter invariant, when
the coefficient of every applied configuration lies in `[0,1]`. -/
theorem run_inv (exp : K → K) (pi : K)
    (hexp : ∀ config : ProcessingConfig K, ValidConfig config →
      0 ≤ filterAlpha exp pi config ∧ filterAlpha exp pi config ≤ 1)
    (ops : List (Op K)) (hops : ValidOps ops) : FilterInv (run exp pi ops) := by
  induction ops using List.reverseRecOn with
  | nil =>
    refine initialize_filter_inv exp pi _ (hexp _ ?_) ?_
    · refine ⟨?_, ?_, ?_⟩ <;> simp only [ProcessingConfig.default] <;> norm_num
    · intro x hx
      cases hx
  | append_singleton ops op ih =>
    have hprev : FilterInv (run exp pi ops) :=
      ih (fun c hc => hops c (List.mem_append_left _ hc))
    unfold run
    rw [List.foldl_append]
    show FilterInv (step exp pi (run exp pi ops) op)
    cases op with
    | configure config =>
      exact initialize_filter_inv exp pi _ (hexp config (hops config (by simp))) hprev.2.2
    | process_raw_packet clk mz raw_data =>
      exact (process_raw_packet_inv clk mz raw_data _ hprev).2
    | process_batch clk mz raw_packets =>
      exact process_batch_loop_inv clk mz raw_packets 0 _ [] hprev

end Generic

/-- Over the reals, with `std::exp` and `M_PI`, a valid configuration gives a
coefficient `alpha` in `(0,1)`. -/
theorem filterAlpha_real (config : ProcessingConfig ℝ) (h : ValidConfig config) :
    0 < filterAlpha Real.exp Real.pi config ∧ filterAlpha Real.exp Real.pi config < 1 := by
  unfold filterAlpha
  refine ⟨Real.exp_pos _, ?_⟩
  rw [Real.exp_lt_one_iff]
  have h1 : 0 < config.filter_cutoff / (config.sampling_rate / 2) :=
    div_pos h.2.1 (by linarith [h.1])
  have h2 := Real.pi_pos
  nlinarith [mul_pos h2 h1]

/-! ## Claims on the biosensor processor -/

/-- C1: for every state reached from construction by configure,
process_raw_packet and process_batch calls whose applied configurations have
sampling_rate > 0 and 0 < filter_cutoff < sampling_rate/2, and every buffer of
at least 20 bytes, the gsr_value returned by process_raw_packet lies in
[0,100] (filtering enabled or not, any raw GSR field, exact real arithmetic);
the state reached keeps alpha in [0,1] and every filter_state_ entry in
[0,100]. -/
theorem C1_gsr_value_in_range (ops : List (Op ℝ)) (hops : ValidOps ops)
    (clk : Clock) (mag_z_raw : Int) (raw_data : List Byte) (_hlen : 20 ≤ raw_data.length) :
    0 ≤ (process_raw_packet clk mag_z_raw raw_data (run Real.exp Real.pi ops)).1.gsr_value ∧
      (process_raw_packet clk mag_z_raw raw_data (run Real.exp Real.pi ops)).1.gsr_value ≤ 100 ∧
      FilterInv (run Real.exp Real.pi ops) := by
  have hinv : FilterInv (run Real.exp Real.pi ops) :=
    run_inv Real.exp Real.pi
      (fun c hc => ⟨(filterAlpha_real c hc).1.le, (filterAlpha_real c hc).2.le⟩) ops hops
  have h := (process_raw_packet_inv clk mag_z_raw raw_data _ hinv).1
  exact ⟨h.1, h.2, hinv⟩

/-- C1 at a concrete call sequence: a reconfiguration to 256 Hz with a 10 Hz
cutoff, one processed packet, then a packet of twenty bytes 0xFF. -/
theorem C1_gsr_value_in_range_witness :
    0 ≤ (process_raw_packet ⟨1000, 5⟩ 0 (List.replicate 20 (255 : Byte))
        (run Real.exp Real.pi
          [Op.configure ⟨256, true, 10, true, 100⟩,
            Op.process_raw_packet ⟨0, 3⟩ 0 (List.replicate 21 (7 : Byte))])).1.gsr_value ∧
      (process_raw_packet ⟨1000, 5⟩ 0 (List.replicate 20 (255 : Byte))
        (run Real.exp Real.pi
          [Op.configure ⟨256, true, 10, true, 100⟩,
            Op.process_raw_packet ⟨0, 3⟩ 0 (List.replicate 21 (7 : Byte))])).1.gsr_value ≤ 100 ∧
      FilterInv (run Real.exp Real.pi
          [Op.configure ⟨256, true, 10, true, 100⟩,
            Op.process_raw_packet ⟨0, 3⟩ 0 (List.replicate 21 (7 : Byte))]) :=
  C1_gsr_value_in_range _
    (by
      intro c hc
      simp only [List.mem_cons, Op.configure.injEq, List.mem_singleton, reduceCtorEq,
        or_false, List.not_mem_nil] at hc
      subst hc
      refine ⟨?_, ?_, ?_⟩ <;> norm_num)
    ⟨1000, 5⟩ 0 (List.replicate 20 (255 : Byte)) (by decide)

section Generic

variable {K : Type} [LinearOrderedField K]

/-- C2: for every buffer shorter than 20 bytes and every processor state,
process_raw_packet returns (the function is total) a reading whose timestamp
is the clock reading, non-zero when the clock reading is non-zero, and whose
twelve physical fields, battery_level included, are exactly 0. -/
theorem C2_short_packet_zeroed (clk : Clock) (mag_z_raw : Int) (raw_data : List Byte)
    (s : State K) (hshort : raw_data.length < 20) :
    (process_raw_packet clk mag_z_raw raw_data s).1 =
        { (SensorReading.zero : SensorReading K) with timestamp := (clk.now_us : K) / 1000 } ∧
      (clk.now_us ≠ 0 → (process_raw_packet clk mag_z_raw raw_data s).1.timestamp ≠ 0) ∧
      (process_raw_packet clk mag_z_raw raw_data s).1.gsr_value = 0 ∧
      (process_raw_packet clk mag_z_raw raw_data s).1.ppg_value = 0 ∧
      (process_raw_packet clk mag_z_raw raw_data s).1.accel_x = 0 ∧
      (process_raw_packet clk mag_z_raw raw_data s).1.accel_y = 0 ∧
      (process_raw_packet clk mag_z_raw raw_data s).1.accel_z = 0 ∧
      (process_raw_packet clk mag_z_raw raw_data s).1.gyro_x = 0 ∧
      (process_raw_packet clk mag_z_raw raw_data s).1.gyro_y = 0 ∧
      (process_raw_packet clk mag_z_raw raw_data s).1.gyro_z = 0 ∧
      (process_raw_packet clk mag_z_raw raw_data s).1.mag_x = 0 ∧
      (process_raw_packet clk mag_z_raw raw_data s).1.mag_y = 0 ∧
      (process_raw_packet clk mag_z_raw raw_data s).1.mag_z = 0 ∧
      (process_raw_packet clk mag_z_raw raw_data s).1.battery_level = 0 := by
  have h : (process_raw_packet clk mag_z_raw raw_data s).1 =
      { (SensorReading.zero : SensorReading K) with timestamp := (clk.now_us : K) / 1000 } := by
    unfold process_raw_packet
    simp only [hshort, if_true, get_high_precision_timestamp]
  rw [h]
  refine ⟨rfl, ?_, rfl, rfl, rfl, rfl, rfl, rfl, rfl, rfl, rfl, rfl, rfl, rfl⟩
  intro hne
  show (clk.now_us : K) / 1000 ≠ 0
  exact div_ne_zero (Int.cast_ne_zero.mpr hne) (by norm_num)

/-- C2 at a concrete input: a 19-byte buffer on a state over the rationals
with a non-zero filter state, clock reading 1234567 microseconds. -/
theorem C2_short_packet_zeroed_witness :
    (List.replicate 19 (200 : Byte)).length < 20 ∧
      (process_raw_packet ⟨1234567, 4⟩ 0 (List.replicate 19 (200 : Byte))
        (⟨ProcessingConfig.default, [1 / 2, 1 / 2], [1, 2, 3, 4], 0, 0⟩ : State ℚ)).1 =
        { (SensorReading.zero : SensorReading ℚ) with timestamp := ((1234567 : Int) : ℚ) / 1000 } :=
  ⟨by decide,
    (C2_short_packet_zeroed ⟨1234567, 4⟩ 0 (List.replicate 19 (200 : Byte))
      (⟨ProcessingConfig.default, [1 / 2, 1 / 2], [1, 2, 3, 4], 0, 0⟩ : State ℚ)
      (by decide)).1⟩

theorem low_pass_loop_const (alpha c : K) :
    ∀ n : Nat, low_pass_loop alpha c (List.replicate n c) = List.replicate n c := by
  intro n
  induction n with
  | zero => rfl
  | succ n ih =>
    have hc : alpha * c + (1 - alpha) * c = c := by ring
    rw [List.replicate_succ, low_pass_loop]
    simp only [hc, ih]

/-- On a constant sequence the filter returns the sequence whenever `alpha`
is a real number. -/
theorem apply_low_pass_filter_const (pi : K) (s : State K) (c : K) (n : Nat) (cutoff_freq : K)
    (alpha : K) (ha : lowPassAlpha pi s.config_.sampling_rate cutoff_freq = some alpha) :
    apply_low_pass_filter pi s (List.replicate n c) cutoff_freq =
      (List.replicate n c).map some := by
  cases n with
  | zero => rfl
  | succ n =>
    rw [List.replicate_succ]
    unfold apply_low_pass_filter
    simp only [ha, low_pass_loop_const]

/-- The coefficient is a real number when the sampling rate is non-zero and
the divisor `dt + 1 / (2 pi cutoff)` is non-zero or `2 pi cutoff` is zero. -/
theorem lowPassAlpha_isSome (pi sampling_rate cutoff_freq : K) (hsr : sampling_rate ≠ 0)
    (hdiv : 2 * pi * cutoff_freq = 0 ∨ 1 / sampling_rate + 1 / (2 * pi * cutoff_freq) ≠ 0) :
    ∃ alpha, lowPassAlpha pi sampling_rate cutoff_freq = some alpha := by
  unfold lowPassAlpha
  rw [if_neg hsr]
  by_cases h0 : 2 * pi * cutoff_freq = 0
  · exact ⟨0, by simp only [h0, if_true]⟩
  · rcases hdiv with h | h
    · exact absurd h h0
    · exact ⟨1 / sampling_rate / (1 / sampling_rate + 1 / (2 * pi * cutoff_freq)), by
        simp only [h0, h, if_false]⟩

/-- C4 (amended): for every c, every length n, every cutoff_freq and every
configured sampling_rate with sampling_rate non-zero and the divisor
1/sampling_rate + 1/(2 pi cutoff_freq) non-zero (or 2 pi cutoff_freq = 0,
where alpha is 0), in particular for positive sampling_rate and cutoff_freq,
apply_low_pass_filter on the constant sequence of n copies of c returns that
same sequence: same length, every element equal to c; for n <= 1 it does so
for every sampling_rate and cutoff_freq (exact arithmetic). -/
theorem C4_low_pass_constant_fixed_point (pi : K) (s : State K) (c : K) (n : Nat)
    (cutoff_freq : K) :
    (s.config_.sampling_rate ≠ 0 →
        (2 * pi * cutoff_freq = 0 ∨
          1 / s.config_.sampling_rate + 1 / (2 * pi * cutoff_freq) ≠ 0) →
        apply_low_pass_filter pi s (List.replicate n c) cutoff_freq =
            (List.replicate n c).map some ∧
          (apply_low_pass_filter pi s (List.replicate n c) cutoff_freq).length = n ∧
          ∀ x ∈ apply_low_pass_filter pi s (List.replicate n c) cutoff_freq, x = some c) ∧
      (0 < pi → 0 < s.config_.sampling_rate → 0 < cutoff_freq →
        apply_low_pass_filter pi s (List.replicate n c) cutoff_freq =
          (List.replicate n c).map some) ∧
      (n ≤ 1 →
        apply_low_pass_filter pi s (List.replicate n c) cutoff_freq =
          (List.replicate n c).map some) := by
  have key : s.config_.sampling_rate ≠ 0 →
      (2 * pi * cutoff_freq = 0 ∨
        1 / s.config_.sampling_rate + 1 / (2 * pi * cutoff_freq) ≠ 0) →
      apply_low_pass_filter pi s (List.replicate n c) cutoff_freq =
        (List.replicate n c).map some := by
    intro hsr hdiv
    obtain ⟨alpha, ha⟩ := lowPassAlpha_isSome pi _ cutoff_freq hsr hdiv
    exact apply_low_pass_filter_const pi s c n cutoff_freq alpha ha
  refine ⟨?_, ?_, ?_⟩
  · intro hsr hdiv
    rw [key hsr hdiv]
    refine ⟨rfl, by simp, ?_⟩
    intro x hx
    obtain ⟨y, hy, rfl⟩ := List.mem_map.mp hx
    rw [(List.mem_replicate.mp hy).2]
  · intro hpi hsr hc
    apply key (ne_of_gt hsr)
    right
    have h1 : 0 < 1 / s.config_.sampling_rate := by positivity
    have h2 : 0 < 1 / (2 * pi * cutoff_freq) := by positivity
    exact ne_of_gt (add_pos h1 h2)
  · intro hn
    have hn' : n = 0 ∨ n = 1 := by omega
    rcases hn' with rfl | rfl
    · rfl
    · unfold apply_low_pass_filter
      simp only [List.replicate_one]
      cases lowPassAlpha pi s.config_.sampling_rate cutoff_freq <;> rfl

theorem remove_artifacts_loop_length (thr : K) :
    ∀ (r i : Nat) (t u : List K), remove_artifacts_loop thr r i t = some u →
      u.length = t.length := by
  intro r
  induction r with
  | zero =>
    intro i t u h
    unfold remove_artifacts_loop at h
    injection h with h
    rw [h]
  | succ r ih =>
    intro i t u h
    unfold remove_artifacts_loop at h
    split at h
    · dsimp only at h
      split at h
      · rw [ih _ _ _ h, List.length_set]
      · exact ih _ _ _ h
    · cases h

/-- On a signal with no adjacent difference over the threshold, loop
iterations that stay inside the signal change nothing. -/
theorem remove_artifacts_loop_smooth (thr : K) (t : List K) (hsm : AdjacentWithin thr t) :
    ∀ (r j : Nat), (r ≠ 0 → j + 1 + r < t.length) →
      remove_artifacts_loop thr r (j + 1) t = some t := by
  intro r
  induction r with
  | zero => intro j _; rfl
  | succ r ih =>
    intro j hb
    have hlt : j + 2 < t.length := by have := hb (by omega); omega
    have h0 : t[j + 1 - 1]? = some t[j] := by
      simp only [Nat.add_sub_cancel]
      exact List.getElem?_eq_getElem (by omega)
    have h1 : t[j + 1]? = some t[j + 1] := List.getElem?_eq_getElem (by omega)
    have h2 : t[j + 1 + 1]? = some t[j + 2] := List.getElem?_eq_getElem hlt
    have hd1 := hsm j (by omega)
    have hd2 := hsm (j + 1) hlt
    unfold remove_artifacts_loop
    simp only [h0, h1, h2]
    rw [if_neg (by simp only [gt_iff_lt, not_or, not_lt]; exact ⟨hd1, hd2⟩)]
    exact ih (j + 1) (by intro hr; omega)

/-- C5: with artifact removal enabled, remove_artifacts returns unchanged
every non-empty signal whose adjacent differences are all within the
threshold; hence if the output r of remove_artifacts on a non-empty signal has
no adjacent difference over the threshold, applying remove_artifacts to r
gives r again. -/
theorem C5_remove_artifacts_fixed_point (s : State K)
    (hen : s.config_.enable_artifact_removal = true) :
    (∀ t : List K, t ≠ [] → AdjacentWithin s.config_.artifact_threshold t →
        remove_artifacts s t = some t) ∧
      (∀ sig r : List K, sig ≠ [] → remove_artifacts s sig = some r →
        AdjacentWithin s.config_.artifact_threshold r → remove_artifacts s r = some r) := by
  have key : ∀ t : List K, t ≠ [] → AdjacentWithin s.config_.artifact_threshold t →
      remove_artifacts s t = some t := by
    intro t hne hsm
    have hpos : 0 < t.length := List.length_pos.mpr hne
    unfold remove_artifacts
    simp only [hen, Bool.not_true, Bool.false_eq_true, if_false]
    apply remove_artifacts_loop_smooth _ t hsm
    intro hr
    have hmod : (t.length + 2 ^ 64 - 1) % 2 ^ 64 ≤ t.length - 1 := by
      have e : t.length + 2 ^ 64 - 1 = (t.length - 1) + 2 ^ 64 := by omega
      rw [e, Nat.add_mod_right]
      exact Nat.mod_le _ _
    omega
  refine ⟨key, ?_⟩
  intro sig r hne hr hsm
  apply key r _ hsm
  have hlen : r.length = sig.length := by
    unfold remove_artifacts at hr
    simp only [hen, Bool.not_true, Bool.false_eq_true, if_false] at hr
    exact remove_artifacts_loop_length _ _ _ _ _ hr
  intro h
  rw [h] at hlen
  exact hne (List.length_eq_zero.mp hlen.symm)

/-- C5 at a concrete input over the rationals: threshold 100, the signal
[10, 300, 50, 60] is cleaned to [10, 30, 50, 60], which has no adjacent
difference over 100 and is returned unchanged by a second pass. -/
theorem C5_remove_artifacts_fixed_point_witness :
    remove_artifacts (⟨ProcessingConfig.default, [], [], 0, 0⟩ : State ℚ) [10, 300, 50, 60] =
        some [10, 30, 50, 60] ∧
      remove_artifacts (⟨ProcessingConfig.default, [], [], 0, 0⟩ : State ℚ) [10, 30, 50, 60] =
        some [10, 30, 50, 60] := by
  have h1 : remove_artifacts (⟨ProcessingConfig.default, [], [], 0, 0⟩ : State ℚ)
      [10, 300, 50, 60] = some [10, 30, 50, 60] := by
    simp [remove_artifacts, remove_artifacts_loop, ProcessingConfig.default]
    norm_num [abs_of_nonneg, abs_of_nonpos]
  have h2 : AdjacentWithin (100 : ℚ) [10, 30, 50, 60] := by
    intro j h
    have hj : j < 3 := by simp at h; omega
    interval_cases j <;> simp [abs_le] <;> norm_num
  exact ⟨h1, (C5_remove_artifacts_fixed_point
    (⟨ProcessingConfig.default, [], [], 0, 0⟩ : State ℚ) rfl).2 [10, 300, 50, 60]
      [10, 30, 50, 60] (by simp) h1 h2⟩

/-- The fields of the reading other than gsr_value do not depend on the
filter branch. -/
theorem process_raw_packet_fields (clk : Clock) (mag_z_raw : Int) (raw_data : List Byte)
    (s : State K) (hlen : 20 ≤ raw_data.length) :
    (process_raw_packet clk mag_z_raw raw_data s).1.ppg_value =
        ((toUInt16 (word raw_data 2 3) : Nat) : K) * 0.001 ∧
      (process_raw_packet clk mag_z_raw raw_data s).1.accel_x =
        ((toInt16 (word raw_data 4 5) : Int) : K) * (4.0 / 65536.0 * 9.81) ∧
      (process_raw_packet clk mag_z_raw raw_data s).1.accel_y =
        ((toInt16 (word raw_data 6 7) : Int) : K) * (4.0 / 65536.0 * 9.81) ∧
      (process_raw_packet clk mag_z_raw raw_data s).1.accel_z =
        ((toInt16 (word raw_data 8 9) : Int) : K) * (4.0 / 65536.0 * 9.81) ∧
      (process_raw_packet clk mag_z_raw raw_data s).1.gyro_x =
        ((toInt16 (word raw_data 10 11) : Int) : K) * (1000.0 / 65536.0) ∧
      (process_raw_packet clk mag_z_raw raw_data s).1.gyro_y =
        ((toInt16 (word raw_data 12 13) : Int) : K) * (1000.0 / 65536.0) ∧
      (process_raw_packet clk mag_z_raw raw_data s).1.gyro_z =
        ((toInt16 (word raw_data 14 15) : Int) : K) * (1000.0 / 65536.0) ∧
      (process_raw_packet clk mag_z_raw raw_data s).1.mag_x =
        ((toInt16 (word raw_data 16 17) : Int) : K) * (8000.0 / 65536.0) ∧
      (process_raw_packet clk mag_z_raw raw_data s).1.mag_y =
        ((toInt16 (word raw_data 18 19) : Int) : K) * (8000.0 / 65536.0) := by
  have hshort : ¬ raw_data.length < 20 := by omega
  unfold process_raw_packet
  rw [if_neg hshort]
  by_cases hf : s.config_.enable_filtering = true
  · simp only [hf, if_true, and_self]
  · simp only [hf, Bool.false_eq_true, if_false, and_self]

/-- C7: for every buffer b of at least 20 bytes, whatever the state,
process_raw_packet gives accel_x/y/z = s16 of the byte pairs at offsets 4, 6,
8 times (4.0/65536)*9.81, gyro_x/y/z = s16 of the pairs at 10, 12, 14 times
1000.0/65536, mag_x/y = s16 of the pairs at 16, 18 times 8000.0/65536, and
ppg_value = (b[2] + 256*b[3]) * 0.001, where
s16(lo, hi) = ((lo + 256*hi + 32768) mod 65536) - 32768. -/
theorem C7_field_decoding (clk : Clock) (mag_z_raw : Int) (b : List Byte) (s : State K)
    (hlen : 20 ≤ b.length) :
    (process_raw_packet clk mag_z_raw b s).1.accel_x =
        ((s16 (b.getD 4 0).val (b.getD 5 0).val : Int) : K) * (4.0 / 65536 * 9.81) ∧
      (process_raw_packet clk mag_z_raw b s).1.accel_y =
        ((s16 (b.getD 6 0).val (b.getD 7 0).val : Int) : K) * (4.0 / 65536 * 9.81) ∧
      (process_raw_packet clk mag_z_raw b s).1.accel_z =
        ((s16 (b.getD 8 0).val (b.getD 9 0).val : Int) : K) * (4.0 / 65536 * 9.81) ∧
      (process_raw_packet clk mag_z_raw b s).1.gyro_x =
        ((s16 (b.getD 10 0).val (b.getD 11 0).val : Int) : K) * (1000.0 / 65536) ∧
      (process_raw_packet clk mag_z_raw b s).1.gyro_y =
        ((s16 (b.getD 12 0).val (b.getD 13 0).val : Int) : K) * (1000.0 / 65536) ∧
      (process_raw_packet clk mag_z_raw b s).1.gyro_z =
        ((s16 (b.getD 14 0).val (b.getD 15 0).val : Int) : K) * (1000.0 / 65536) ∧
      (process_raw_packet clk mag_z_raw b s).1.mag_x =
        ((s16 (b.getD 16 0).val (b.getD 17 0).val : Int) : K) * (8000.0 / 65536) ∧
      (process_raw_packet clk mag_z_raw b s).1.mag_y =
        ((s16 (b.getD 18 0).val (b.getD 19 0).val : Int) : K) * (8000.0 / 65536) ∧
      (process_raw_packet clk mag_z_raw b s).1.ppg_value =
        (((b.getD 2 0).val + 256 * (b.getD 3 0).val : Nat) : K) * 0.001 := by
  obtain ⟨h0, h1, h2, h3, h4, h5, h6, h7, h8⟩ :=
    process_raw_packet_fields clk mag_z_raw b s hlen
  rw [h0, h1, h2, h3, h4, h5, h6, h7, h8]
  simp only [toInt16_word, toUInt16_word]
  norm_num

/-- C7 at the spec's examples over the rationals: bytes FF 7F at offset 4
(raw 32767) give accel_x = 32767*4.0/65536*9.81, and bytes 00 80 at offset 6
(raw -32768) give accel_y = -32768*4.0/65536*9.81. -/
theorem C7_field_decoding_witness :
    (process_raw_packet ⟨0, 0⟩ 0
        [0, 0, 0, 0, 255, 127, 0, 128, 0, 0, 0, 0, 0, 0, 0, 0, 0, 0, 0, 0]
        (construct (fun _ => (1 / 2 : ℚ)) 3)).1.accel_x = 32767 * 4.0 / 65536 * 9.81 ∧
      (process_raw_packet ⟨0, 0⟩ 0
        [0, 0, 0, 0, 255, 127, 0, 128, 0, 0, 0, 0, 0, 0, 0, 0, 0, 0, 0, 0]
        (construct (fun _ => (1 / 2 : ℚ)) 3)).1.accel_y = -32768 * 4.0 / 65536 * 9.81 := by
  have h := C7_field_decoding (K := ℚ) ⟨0, 0⟩ 0
    [0, 0, 0, 0, 255, 127, 0, 128, 0, 0, 0, 0, 0, 0, 0, 0, 0, 0, 0, 0]
    (construct (fun _ => (1 / 2 : ℚ)) 3) (by decide)
  refine ⟨?_, ?_⟩
  · rw [h.1]
    have e : s16 ((([0, 0, 0, 0, 255, 127, 0, 128, 0, 0, 0, 0, 0, 0, 0, 0, 0, 0, 0, 0] :
        List Byte).getD 4 0).val) ((([0, 0, 0, 0, 255, 127, 0, 128, 0, 0, 0, 0, 0, 0, 0, 0,
        0, 0, 0, 0] : List Byte).getD 5 0).val) = 32767 := by decide
    rw [e]
    norm_num
  · rw [h.2.1]
    have e : s16 ((([0, 0, 0, 0, 255, 127, 0, 128, 0, 0, 0, 0, 0, 0, 0, 0, 0, 0, 0, 0] :
        List Byte).getD 6 0).val) ((([0, 0, 0, 0, 255, 127, 0, 128, 0, 0, 0, 0, 0, 0, 0, 0,
        0, 0, 0, 0] : List Byte).getD 7 0).val) = -32768 := by decide
    rw [e]
    norm_num

/-- One filtered reading on a state with coefficients `[c0, c1]` and filter
state `[a, b, c, d]`: the returned GSR value is `g * c0 + b * c1`, `g` being
the converted raw field, and the new filter state is `[b, c, d, g*c0 + b*c1]`. -/
theorem process_raw_packet_filtered (clk : Clock) (mag_z_raw : Int) (raw_data : List Byte)
    (config : ProcessingConfig K) (c0 c1 a b c d t : K) (n : Nat)
    (hlen : 20 ≤ raw_data.length) (hf : config.enable_filtering = true) :
    (process_raw_packet clk mag_z_raw raw_data ⟨config, [c0, c1], [a, b, c, d], t, n⟩).1.gsr_value =
        convert_gsr_raw_to_microsiemens (toUInt16 (word raw_data 0 1)) * c0 + b * c1 ∧
      (process_raw_packet clk mag_z_raw raw_data ⟨config, [c0, c1], [a, b, c, d], t, n⟩).2 =
        ⟨config, [c0, c1],
          [b, c, d, convert_gsr_raw_to_microsiemens (toUInt16 (word raw_data 0 1)) * c0 + b * c1],
          t + (clk.elapsed_us : K) / 1000, sizeSucc n⟩ := by
  have hshort : ¬ raw_data.length < 20 := by omega
  unfold process_raw_packet
  rw [if_neg hshort]
  simp only [hf, if_true, update_performance_metrics]
  exact ⟨rfl, rfl⟩

/-- The converted GSR value of the raw field 2048: 37.5 microsiemens. -/
theorem convert_gsr_2048 : convert_gsr_raw_to_microsiemens 2048 = (75 / 2 : K) := by
  unfold convert_gsr_raw_to_microsiemens
  norm_num

end Generic

/-- C4 as stated fails: with sampling_rate = 0 (dt infinite, alpha NaN) the
constant sequence [5, 5, 5] is returned as [5, NaN, NaN]. -/
theorem C4_zero_sampling_rate_counterexample :
    apply_low_pass_filter Real.pi
        (⟨⟨0, true, 5, true, 100⟩, [], [], 0, 0⟩ : State ℝ) (List.replicate 3 5) 5 =
      [some 5, none, none] := by
  simp [apply_low_pass_filter, lowPassAlpha, List.replicate]

/-- C4 at a concrete input over the rationals (22/7 standing for pi): the
default 128 Hz configuration, cutoff 5 Hz and three copies of 7. -/
theorem C4_low_pass_constant_fixed_point_witness :
    apply_low_pass_filter (22 / 7 : ℚ)
        (⟨ProcessingConfig.default, [], [], 0, 0⟩ : State ℚ) (List.replicate 3 7) 5 =
      (List.replicate 3 (7 : ℚ)).map some :=
  (C4_low_pass_constant_fixed_point (22 / 7 : ℚ)
    (⟨ProcessingConfig.default, [], [], 0, 0⟩ : State ℚ) 7 3 5).2.1
    (by norm_num) (by simp only [ProcessingConfig.default]; norm_num) (by norm_num)

theorem gsrPacket_raw : toUInt16 (word gsrPacket 0 1) = 2048 := by decide

theorem construct_eq {K : Type} [LinearOrderedField K] (exp : K → K) (pi : K) :
    construct exp pi =
      ⟨ProcessingConfig.default,
        [1 - filterAlpha exp pi ProcessingConfig.default, filterAlpha exp pi ProcessingConfig.default],
        [0, 0, 0, 0], 0, 0⟩ := rfl

/-- Three packets with converted GSR value 37.5 on a fresh processor, then a
reconfiguration: the filter state, the coefficients and the value returned
for the next packet, for any clock readings. -/
theorem configure_after_three_packets (clk : Nat → Clock) (mag_z_raw : Nat → Int)
    (clk1 : Clock) (mz1 : Int) :
    (run Real.exp Real.pi
        [Op.process_batch clk mag_z_raw [gsrPacket, gsrPacket, gsrPacket],
          Op.configure ⟨256, true, 10, true, 100⟩]).filter_state_ =
        [0, 75 / 2 * (1 - filterAlpha Real.exp Real.pi ProcessingConfig.default),
          75 / 2 * (1 - filterAlpha Real.exp Real.pi ProcessingConfig.default),
          75 / 2 * (1 - filterAlpha Real.exp Real.pi ProcessingConfig.default)] ∧
      (run Real.exp Real.pi
        [Op.process_batch clk mag_z_raw [gsrPacket, gsrPacket, gsrPacket],
          Op.configure ⟨256, true, 10, true, 100⟩]).filter_state_ ≠ [0, 0, 0, 0] ∧
      (run Real.exp Real.pi
        [Op.process_batch clk mag_z_raw [gsrPacket, gsrPacket, gsrPacket],
          Op.configure ⟨256, true, 10, true, 100⟩]).filter_coefficients_ =
        [1 - filterAlpha Real.exp Real.pi ⟨256, true, 10, true, 100⟩,
          filterAlpha Real.exp Real.pi ⟨256, true, 10, true, 100⟩] ∧
      (process_raw_packet clk1 mz1 gsrPacket
        (run Real.exp Real.pi
          [Op.process_batch clk mag_z_raw [gsrPacket, gsrPacket, gsrPacket],
            Op.configure ⟨256, true, 10, true, 100⟩])).1.gsr_value =
        75 / 2 * (1 - filterAlpha Real.exp Real.pi ⟨256, true, 10, true, 100⟩) +
          75 / 2 * (1 - filterAlpha Real.exp Real.pi ProcessingConfig.default) *
            filterAlpha Real.exp Real.pi ⟨256, true, 10, true, 100⟩ ∧
      (process_raw_packet clk1 mz1 gsrPacket
        (run Real.exp Real.pi
          [Op.process_batch clk mag_z_raw [gsrPacket, gsrPacket, gsrPacket],
            Op.configure ⟨256, true, 10, true, 100⟩])).1.gsr_value ≠
        (1 - filterAlpha Real.exp Real.pi ⟨256, true, 10, true, 100⟩) * (75 / 2) := by
  have hv0 : ValidConfig (ProcessingConfig.default : ProcessingConfig ℝ) := by
    refine ⟨?_, ?_, ?_⟩ <;> simp only [ProcessingConfig.default] <;> norm_num
  have hv2 : ValidConfig (⟨256, true, 10, true, 100⟩ : ProcessingConfig ℝ) := by
    refine ⟨?_, ?_, ?_⟩ <;> norm_num
  obtain ⟨ha0, ha1⟩ := filterAlpha_real _ hv0
  obtain ⟨hb0, hb1⟩ := filterAlpha_real _ hv2
  have hrun : run Real.exp Real.pi
      [Op.process_batch clk mag_z_raw [gsrPacket, gsrPacket, gsrPacket],
        Op.configure ⟨256, true, 10, true, 100⟩] =
      ⟨⟨256, true, 10, true, 100⟩,
        [1 - filterAlpha Real.exp Real.pi ⟨256, true, 10, true, 100⟩,
          filterAlpha Real.exp Real.pi ⟨256, true, 10, true, 100⟩],
        [0, 75 / 2 * (1 - filterAlpha Real.exp Real.pi ProcessingConfig.default),
          75 / 2 * (1 - filterAlpha Real.exp Real.pi ProcessingConfig.default),
          75 / 2 * (1 - filterAlpha Real.exp Real.pi ProcessingConfig.default)],
        ((clk 0).elapsed_us : ℝ) / 1000 + ((clk 1).elapsed_us : ℝ) / 1000 +
          ((clk 2).elapsed_us : ℝ) / 1000,
        sizeSucc (sizeSucc (sizeSucc 0))⟩ := by
    unfold run
    rw [construct_eq]
    generalize filterAlpha Real.exp Real.pi ProcessingConfig.default = alpha
    have h1 := process_raw_packet_filtered (K := ℝ) (clk 0) (mag_z_raw 0) gsrPacket
      ProcessingConfig.default (1 - alpha) alpha 0 0 0 0 0 0 (by decide) rfl
    have h2 := process_raw_packet_filtered (K := ℝ) (clk 1) (mag_z_raw 1) gsrPacket
      ProcessingConfig.default (1 - alpha) alpha 0 0 0 (75 / 2 * (1 - alpha))
      (((clk 0).elapsed_us : ℝ) / 1000) (sizeSucc 0) (by decide) rfl
    have h3 := process_raw_packet_filtered (K := ℝ) (clk 2) (mag_z_raw 2) gsrPacket
      ProcessingConfig.default (1 - alpha) alpha 0 0 (75 / 2 * (1 - alpha))
      (75 / 2 * (1 - alpha))
      (((clk 0).elapsed_us : ℝ) / 1000 + ((clk 1).elapsed_us : ℝ) / 1000)
      (sizeSucc (sizeSucc 0)) (by decide) rfl
    simp only [gsrPacket_raw, Nat.cast_ofNat, convert_gsr_2048, zero_mul, add_zero,
      zero_add] at h1 h2 h3
    simp only [List.foldl, step, process_batch, process_batch_loop, h1.2, h2.2, h3.2, zero_add,
      Nat.reduceAdd, configure, initialize_filter]
    rw [show resize [(0 : ℝ), 75 / 2 * (1 - alpha), 75 / 2 * (1 - alpha),
      75 / 2 * (1 - alpha)] 4 0 = _ from resize_of_length 0 rfl]
  rw [hrun]
  have hnext := process_raw_packet_filtered (K := ℝ) clk1 mz1 gsrPacket
    ⟨256, true, 10, true, 100⟩
    (1 - filterAlpha Real.exp Real.pi ⟨256, true, 10, true, 100⟩)
    (filterAlpha Real.exp Real.pi ⟨256, true, 10, true, 100⟩) 0
    (75 / 2 * (1 - filterAlpha Real.exp Real.pi ProcessingConfig.default))
    (75 / 2 * (1 - filterAlpha Real.exp Real.pi ProcessingConfig.default))
    (75 / 2 * (1 - filterAlpha Real.exp Real.pi ProcessingConfig.default))
    (((clk 0).elapsed_us : ℝ) / 1000 + ((clk 1).elapsed_us : ℝ) / 1000 +
      ((clk 2).elapsed_us : ℝ) / 1000)
    (sizeSucc (sizeSucc (sizeSucc 0))) (by decide) rfl
  simp only [gsrPacket_raw, Nat.cast_ofNat, convert_gsr_2048] at hnext
  rw [hnext.1]
  generalize filterAlpha Real.exp Real.pi ProcessingConfig.default = a0 at ha0 ha1 ⊢
  generalize filterAlpha Real.exp Real.pi ⟨256, true, 10, true, 100⟩ = a2 at hb0 hb1 ⊢
  have hy : 0 < 75 / 2 * (1 - a0) := by
    have : 0 < 1 - a0 := by linarith
    positivity
  refine ⟨rfl, ?_, rfl, rfl, ?_⟩
  · intro h
    have h1 : 75 / 2 * (1 - a0) = 0 := by
      have := congrArg (fun l => l.getD 1 1) h
      simpa using this
    linarith
  · have : 0 < 75 / 2 * (1 - a0) * a2 := mul_pos hy hb0
    intro h
    linarith

/-- C9 (code at the failing input): after three packets with converted GSR
value 37.5 on a fresh processor, configure with a new configuration leaves
filter_state_ = [0, y, y, y] with y = 37.5*(1-alpha0) non-zero (resize keeps
the existing entries), sets filter_coefficients_ = [1-alpha, alpha] for the
new alpha, and the next packet yields 37.5*(1-alpha) + y*alpha, which is not
(1-alpha)*37.5. -/
theorem C9_configure_keeps_filter_state :
    (run Real.exp Real.pi
        [Op.process_batch (fun _ => ⟨0, 0⟩) (fun _ => 0) [gsrPacket, gsrPacket, gsrPacket],
          Op.configure ⟨256, true, 10, true, 100⟩]).filter_state_ =
        [0, 75 / 2 * (1 - filterAlpha Real.exp Real.pi ProcessingConfig.default),
          75 / 2 * (1 - filterAlpha Real.exp Real.pi ProcessingConfig.default),
          75 / 2 * (1 - filterAlpha Real.exp Real.pi ProcessingConfig.default)] ∧
      (run Real.exp Real.pi
        [Op.process_batch (fun _ => ⟨0, 0⟩) (fun _ => 0) [gsrPacket, gsrPacket, gsrPacket],
          Op.configure ⟨256, true, 10, true, 100⟩]).filter_state_ ≠ [0, 0, 0, 0] ∧
      (run Real.exp Real.pi
        [Op.process_batch (fun _ => ⟨0, 0⟩) (fun _ => 0) [gsrPacket, gsrPacket, gsrPacket],
          Op.configure ⟨256, true, 10, true, 100⟩]).filter_coefficients_ =
        [1 - filterAlpha Real.exp Real.pi ⟨256, true, 10, true, 100⟩,
          filterAlpha Real.exp Real.pi ⟨256, true, 10, true, 100⟩] ∧
      (process_raw_packet ⟨0, 0⟩ 0 gsrPacket
        (run Real.exp Real.pi
          [Op.process_batch (fun _ => ⟨0, 0⟩) (fun _ => 0) [gsrPacket, gsrPacket, gsrPacket],
            Op.configure ⟨256, true, 10, true, 100⟩])).1.gsr_value =
        75 / 2 * (1 - filterAlpha Real.exp Real.pi ⟨256, true, 10, true, 100⟩) +
          75 / 2 * (1 - filterAlpha Real.exp Real.pi ProcessingConfig.default) *
            filterAlpha Real.exp Real.pi ⟨256, true, 10, true, 100⟩ ∧
      (process_raw_packet ⟨0, 0⟩ 0 gsrPacket
        (run Real.exp Real.pi
          [Op.process_batch (fun _ => ⟨0, 0⟩) (fun _ => 0) [gsrPacket, gsrPacket, gsrPacket],
            Op.configure ⟨256, true, 10, true, 100⟩])).1.gsr_value ≠
        (1 - filterAlpha Real.exp Real.pi ⟨256, true, 10, true, 100⟩) * (75 / 2) :=
  configure_after_three_packets (fun _ => ⟨0, 0⟩) (fun _ => 0) ⟨0, 0⟩ 0

/-- Two packets with converted GSR value 37.5 on a fresh processor: the
returned GSR values, for any clock readings. -/
theorem two_packets_on_fresh_processor (clk : Nat → Clock) (mag_z_raw : Nat → Int) :
    (process_batch clk mag_z_raw [gsrPacket, gsrPacket]
        (construct Real.exp Real.pi)).1.map (fun r => r.gsr_value) =
        [75 / 2 * (1 - filterAlpha Real.exp Real.pi ProcessingConfig.default),
          75 / 2 * (1 - filterAlpha Real.exp Real.pi ProcessingConfig.default)] ∧
      75 / 2 * (1 - filterAlpha Real.exp Real.pi ProcessingConfig.default) ≠
        75 / 2 * (1 - filterAlpha Real.exp Real.pi ProcessingConfig.default) +
          75 / 2 * (1 - filterAlpha Real.exp Real.pi ProcessingConfig.default) *
            filterAlpha Real.exp Real.pi ProcessingConfig.default := by
  have hv : ValidConfig (ProcessingConfig.default : ProcessingConfig ℝ) := by
    refine ⟨?_, ?_, ?_⟩ <;> simp only [ProcessingConfig.default] <;> norm_num
  obtain ⟨ha0, ha1⟩ := filterAlpha_real _ hv
  rw [construct_eq]
  generalize filterAlpha Real.exp Real.pi ProcessingConfig.default = alpha at ha0 ha1 ⊢
  constructor
  · have h1 := process_raw_packet_filtered (K := ℝ) (clk 0) (mag_z_raw 0) gsrPacket
      ProcessingConfig.default (1 - alpha) alpha 0 0 0 0 0 0 (by decide) rfl
    have h2 := process_raw_packet_filtered (K := ℝ) (clk 1) (mag_z_raw 1) gsrPacket
      ProcessingConfig.default (1 - alpha) alpha 0 0 0 (75 / 2 * (1 - alpha))
      (((clk 0).elapsed_us : ℝ) / 1000) (sizeSucc 0) (by decide) rfl
    simp only [gsrPacket_raw, Nat.cast_ofNat, convert_gsr_2048, zero_mul, add_zero,
      zero_add] at h1 h2
    simp only [process_batch, process_batch_loop, h1.2, h1.1, h2.1, h2.2, zero_add,
      List.nil_append, List.cons_append, List.map_cons, List.map_nil]
  · have : 0 < 75 / 2 * (1 - alpha) * alpha := by
      have h1 : 0 < 1 - alpha := by linarith
      positivity
    linarith

/-- C10 (code at the failing input): on a freshly constructed processor
(filtering enabled, alpha from the default configuration) two packets with
converted GSR value 37.5 give y_1 = 37.5*(1-alpha) and y_2 = 37.5*(1-alpha):
the second output has no contribution from y_1, so it differs from
g_2*(1-alpha) + y_1*alpha. -/
theorem C10_second_reading_ignores_first :
    (process_batch (fun _ => ⟨0, 0⟩) (fun _ => 0) [gsrPacket, gsrPacket]
        (construct Real.exp Real.pi)).1.map (fun r => r.gsr_value) =
        [75 / 2 * (1 - filterAlpha Real.exp Real.pi ProcessingConfig.default),
          75 / 2 * (1 - filterAlpha Real.exp Real.pi ProcessingConfig.default)] ∧
      75 / 2 * (1 - filterAlpha Real.exp Real.pi ProcessingConfig.default) ≠
        75 / 2 * (1 - filterAlpha Real.exp Real.pi ProcessingConfig.default) +
          75 / 2 * (1 - filterAlpha Real.exp Real.pi ProcessingConfig.default) *
            filterAlpha Real.exp Real.pi ProcessingConfig.default :=
  two_packets_on_fresh_processor (fun _ => ⟨0, 0⟩) (fun _ => 0)

section Generic

variable {K : Type} [LinearOrderedField K]

/-- The loop of `remove_artifacts` on indices `i, ..., i + r - 1`, all
interior: it returns, keeps the length and every element outside that range,
and sets each element of the range from the already-updated left neighbour
and the unmodified element and right neighbour. -/
theorem remove_artifacts_loop_spec (thr : K) :
    ∀ (r i : Nat) (t : List K), 1 ≤ i → i + r < t.length →
      ∃ u, remove_artifacts_loop thr r i t = some u ∧ u.length = t.length ∧
        (∀ j, j < i → u[j]? = t[j]?) ∧ (∀ j, i + r ≤ j → u[j]? = t[j]?) ∧
        (∀ j, i ≤ j → j < i + r → ∀ p x y, u[j - 1]? = some p → t[j]? = some x →
          t[j + 1]? = some y →
          u[j]? = some (if abs (x - p) > thr ∨ abs (y - x) > thr then (p + y) / 2 else x)) := by
  intro r
  induction r with
  | zero =>
    intro i t _ _
    exact ⟨t, rfl, rfl, fun _ _ => rfl, fun _ _ => rfl, fun j h1 h2 => by omega⟩
  | succ r ih =>
    intro i t hi hlen
    have h0 : t[i - 1]? = some t[i - 1] := List.getElem?_eq_getElem (by omega)
    have h1 : t[i]? = some t[i] := List.getElem?_eq_getElem (by omega)
    have h2 : t[i + 1]? = some t[i + 1] := List.getElem?_eq_getElem (by omega)
    -- the array after this iteration
    obtain ⟨t1, hstep, hlen1, hat, hne⟩ : ∃ t1 : List K,
        remove_artifacts_loop thr (r + 1) i t = remove_artifacts_loop thr r (i + 1) t1 ∧
        t1.length = t.length ∧
        t1[i]? = some (if abs (t[i] - t[i - 1]) > thr ∨ abs (t[i + 1] - t[i]) > thr then
          (t[i - 1] + t[i + 1]) / 2 else t[i]) ∧
        ∀ j, j ≠ i → t1[j]? = t[j]? := by
      by_cases hc : abs (t[i] - t[i - 1]) > thr ∨ abs (t[i + 1] - t[i]) > thr
      · refine ⟨t.set i ((t[i - 1] + t[i + 1]) / 2), ?_, List.length_set _ _ _, ?_, ?_⟩
        · rw [remove_artifacts_loop]
          simp only [h0, h1, h2]
          rw [if_pos hc]
        · rw [if_pos hc]
          exact List.getElem?_set_self (by omega)
        · intro j hj
          exact List.getElem?_set_ne (Ne.symm hj)
      · refine ⟨t, ?_, rfl, ?_, fun _ _ => rfl⟩
        · rw [remove_artifacts_loop]
          simp only [h0, h1, h2]
          rw [if_neg hc]
        · rw [if_neg hc]
          exact h1
    obtain ⟨u, hu, hulen, hlow, hhigh, hmid⟩ := ih (i + 1) t1 (by omega) (by omega)
    refine ⟨u, by rw [hstep, hu], by rw [hulen, hlen1], ?_, ?_, ?_⟩
    · intro j hj
      rw [hlow j (by omega), hne j (by omega)]
    · intro j hj
      rw [hhigh j (by omega), hne j (by omega)]
    · intro j hj1 hj2 p x y hp hx hy
      by_cases hji : j = i
      · subst hji
        rw [hlow (j - 1) (by omega), hne (j - 1) (by omega), h0] at hp
        rw [h1] at hx
        rw [h2] at hy
        injection hp with hp
        injection hx with hx
        injection hy with hy
        rw [hlow j (by omega), hat, hp, hx, hy]
      · rw [← hne j hji] at hx
        rw [← hne (j + 1) (by omega)] at hy
        exact hmid j (by omega) (by omega) p x y hp hx hy

theorem getElem?_eq_some_getD {l : List K} {j : Nat} (h : j < l.length) :
    l[j]? = some (l.getD j 0) := by
  rw [List.getD_eq_getElem l 0 h]
  exact List.getElem?_eq_getElem h

theorem getD_congr {l m : List K} {j : Nat} (h : l[j]? = m[j]?) : l.getD j 0 = m.getD j 0 := by
  rw [List.getD_eq_getElem?_getD, List.getD_eq_getElem?_getD, h]

/-- C11: with artifact removal enabled, for every signal s of length n >= 3
(a vector, so n < 2^64) and threshold T, remove_artifacts returns an output o
of length n with o[0] = s[0], o[n-1] = s[n-1] and, for each i from 1 to n-2,
o[i] = (o[i-1] + s[i+1]) / 2 if |s[i] - o[i-1]| > T or |s[i+1] - s[i]| > T and
o[i] = s[i] otherwise (index `getD i 0` is element i, all indices being in
range). For s = [0, 300, 300, 0] and T = 100 the output is [0, 150, 75, 0],
whereas the pristine-copy variant gives [0, 150, 150, 0]. -/
theorem C11_sequential_artifact_removal (st : State K)
    (hen : st.config_.enable_artifact_removal = true) :
    (∀ sig : List K, 3 ≤ sig.length → sig.length < 2 ^ 64 →
      ∃ o, remove_artifacts st sig = some o ∧ o.length = sig.length ∧
        o.getD 0 0 = sig.getD 0 0 ∧
        o.getD (sig.length - 1) 0 = sig.getD (sig.length - 1) 0 ∧
        ∀ i, 1 ≤ i → i + 1 < sig.length →
          o.getD i 0 =
            if abs (sig.getD i 0 - o.getD (i - 1) 0) > st.config_.artifact_threshold ∨
                abs (sig.getD (i + 1) 0 - sig.getD i 0) > st.config_.artifact_threshold then
              (o.getD (i - 1) 0 + sig.getD (i + 1) 0) / 2
            else sig.getD i 0) ∧
      (st.config_.artifact_threshold = 100 →
        remove_artifacts st [0, 300, 300, 0] = some [0, 150, 75, 0] ∧
          remove_artifacts_pristine (100 : K) [0, 300, 300, 0] = [0, 150, 150, 0]) := by
  constructor
  · intro sig h3 hmax
    have hbound : (sig.length + 2 ^ 64 - 1) % 2 ^ 64 = sig.length - 1 := by
      have e : sig.length + 2 ^ 64 - 1 = (sig.length - 1) + 2 ^ 64 := by omega
      rw [e, Nat.add_mod_right]
      exact Nat.mod_eq_of_lt (by omega)
    obtain ⟨u, hu, hulen, hlow, hhigh, hmid⟩ :=
      remove_artifacts_loop_spec st.config_.artifact_threshold (sig.length - 1 - 1) 1 sig
        (le_refl 1) (by omega)
    refine ⟨u, ?_, hulen, getD_congr (hlow 0 (by omega)), getD_congr (hhigh _ (by omega)), ?_⟩
    · unfold remove_artifacts
      simp only [hen, Bool.not_true, Bool.false_eq_true, if_false, hbound]
      exact hu
    · intro i hi1 hi2
      have h := hmid i hi1 (by omega) (u.getD (i - 1) 0) (sig.getD i 0) (sig.getD (i + 1) 0)
        (getElem?_eq_some_getD (by omega)) (getElem?_eq_some_getD (by omega))
        (getElem?_eq_some_getD (by omega))
      rw [List.getD_eq_getElem?_getD u i 0, h]
      rfl
  · intro hT
    constructor
    · unfold remove_artifacts
      simp only [hen, Bool.not_true, Bool.false_eq_true, if_false, hT]
      have hr : ([0, 300, 300, 0] : List K).length = 4 := rfl
      have e : (4 + 2 ^ 64 - 1) % 2 ^ 64 - 1 = 1 + 1 := by norm_num
      rw [hr, e]
      simp [remove_artifacts_loop]
      norm_num [abs_of_nonneg, abs_of_nonpos]
    · simp [remove_artifacts_pristine, pristine_loop]
      norm_num [abs_of_nonneg, abs_of_nonpos]

/-- C11 at a concrete input over the rationals: threshold 100 and the signal
[0, 300, 300, 0] of the specification's example. -/
theorem C11_sequential_artifact_removal_witness :
    remove_artifacts (⟨ProcessingConfig.default, [], [], 0, 0⟩ : State ℚ) [0, 300, 300, 0] =
        some [0, 150, 75, 0] ∧
      remove_artifacts_pristine (100 : ℚ) [0, 300, 300, 0] = [0, 150, 150, 0] :=
  (C11_sequential_artifact_removal (⟨ProcessingConfig.default, [], [], 0, 0⟩ : State ℚ) rfl).2 rfl

/-- The converted GSR value in closed form: `min(100, 75*r/4096)`. -/
theorem convert_gsr_closed_form (r : Nat) :
    (convert_gsr_raw_to_microsiemens r : K) = min 100 (75 * (r : K) / 4096) := by
  have hnn : (0 : K) ≤ 75 * (r : K) / 4096 := by positivity
  unfold convert_gsr_raw_to_microsiemens
  by_cases h : ((r : K) / 4096) * 3 = 0
  · have hr : (r : K) = 0 := by
      have : (r : K) / 4096 = 0 := by
        rcases mul_eq_zero.mp h with h | h
        · exact h
        · norm_num at h
      rcases div_eq_zero_iff.mp this with h | h
      · exact h
      · norm_num at h
    simp [hr]
  · simp only [h, if_false]
    have hr : (r : K) ≠ 0 := by
      intro h0
      apply h
      rw [h0]
      norm_num
    have e : (1000000 : K) / (40000 / (((r : K) / 4096) * 3)) = 75 * (r : K) / 4096 := by
      field_simp
      ring
    rw [e]
    exact max_eq_right (le_min (by norm_num) hnn)

/-- The value of a reading when filtering is disabled is the converted GSR
value of the raw field. -/
theorem process_raw_packet_unfiltered (clk : Clock) (mag_z_raw : Int) (raw_data : List Byte)
    (s : State K) (hlen : 20 ≤ raw_data.length) (hf : s.config_.enable_filtering = false) :
    (process_raw_packet clk mag_z_raw raw_data s).1.gsr_value =
      convert_gsr_raw_to_microsiemens (toUInt16 (word raw_data 0 1)) := by
  have hshort : ¬ raw_data.length < 20 := by omega
  unfold process_raw_packet
  rw [if_neg hshort]
  simp only [hf, Bool.false_eq_true, if_false]

/-- C12: with filtering disabled, for every buffer b of at least 20 bytes
with raw field r = b[0] + 256*b[1], the returned gsr_value is
min(100, 75*r/4096); for r >= 1 this is the chain
clamp(1000000 / (40000 / ((r/4096)*3.0)), 0, 100); it is 100 exactly when
r >= 5462; and for r = 0 it is 0 (exact arithmetic). -/
theorem C12_gsr_conversion (clk : Clock) (mag_z_raw : Int) (b : List Byte) (s : State K)
    (hlen : 20 ≤ b.length) (hf : s.config_.enable_filtering = false) :
    (process_raw_packet clk mag_z_raw b s).1.gsr_value =
        min 100 (75 * (((b.getD 0 0).val + 256 * (b.getD 1 0).val : Nat) : K) / 4096) ∧
      (1 ≤ (b.getD 0 0).val + 256 * (b.getD 1 0).val →
        (process_raw_packet clk mag_z_raw b s).1.gsr_value =
          max 0 (min 100 (1000000 /
            (40000 / (((((b.getD 0 0).val + 256 * (b.getD 1 0).val : Nat) : K) / 4096) * 3.0))))) ∧
      ((process_raw_packet clk mag_z_raw b s).1.gsr_value = 100 ↔
        5462 ≤ (b.getD 0 0).val + 256 * (b.getD 1 0).val) ∧
      ((b.getD 0 0).val + 256 * (b.getD 1 0).val = 0 →
        (process_raw_packet clk mag_z_raw b s).1.gsr_value = 0) := by
  rw [process_raw_packet_unfiltered clk mag_z_raw b s hlen hf, toUInt16_word]
  generalize (b.getD 0 0).val + 256 * (b.getD 1 0).val = r
  refine ⟨convert_gsr_closed_form r, ?_, ?_, ?_⟩
  · intro _
    rw [convert_gsr_eq_quotient]
    norm_num
  · rw [convert_gsr_closed_form, min_eq_left_iff]
    constructor
    · intro h
      have h1 : (409600 : K) ≤ 75 * (r : K) := by
        have := (le_div_iff₀ (by norm_num : (0 : K) < 4096)).mp h
        linarith
      have h2 : ((409600 : Nat) : K) ≤ ((75 * r : Nat) : K) := by
        push_cast
        exact h1
      have h3 : 409600 ≤ 75 * r := Nat.cast_le.mp h2
      omega
    · intro h
      have h3 : 409600 ≤ 75 * r := by omega
      have h2 : ((409600 : Nat) : K) ≤ ((75 * r : Nat) : K) := Nat.cast_le.mpr h3
      push_cast at h2
      rw [le_div_iff₀ (by norm_num : (0 : K) < 4096)]
      linarith
  · intro h0
    rw [h0, convert_gsr_closed_form]
    norm_num

/-- C12 at concrete inputs over the rationals, filtering disabled: the raw
field 5462 (bytes 56 15) gives 100 and the raw field 0 gives 0. -/
theorem C12_gsr_conversion_witness :
    (process_raw_packet ⟨0, 0⟩ 0
        [86, 21, 0, 0, 0, 0, 0, 0, 0, 0, 0, 0, 0, 0, 0, 0, 0, 0, 0, 0]
        (⟨⟨128, false, 5, true, 100⟩, [1 / 2, 1 / 2], [0, 0, 0, 0], 0, 0⟩ : State ℚ)).1.gsr_value
        = 100 ∧
      (process_raw_packet ⟨0, 0⟩ 0
        [0, 0, 0, 0, 0, 0, 0, 0, 0, 0, 0, 0, 0, 0, 0, 0, 0, 0, 0, 0]
        (⟨⟨128, false, 5, true, 100⟩, [1 / 2, 1 / 2], [0, 0, 0, 0], 0, 0⟩ : State ℚ)).1.gsr_value
        = 0 :=
  ⟨(C12_gsr_conversion ⟨0, 0⟩ 0
      [86, 21, 0, 0, 0, 0, 0, 0, 0, 0, 0, 0, 0, 0, 0, 0, 0, 0, 0, 0]
      (⟨⟨128, false, 5, true, 100⟩, [1 / 2, 1 / 2], [0, 0, 0, 0], 0, 0⟩ : State ℚ)
      (by decide) rfl).2.2.1.mpr (by decide),
    (C12_gsr_conversion ⟨0, 0⟩ 0
      [0, 0, 0, 0, 0, 0, 0, 0, 0, 0, 0, 0, 0, 0, 0, 0, 0, 0, 0, 0]
      (⟨⟨128, false, 5, true, 100⟩, [1 / 2, 1 / 2], [0, 0, 0, 0], 0, 0⟩ : State ℚ)
      (by decide) rfl).2.2.2 (by decide)⟩

/-- On the empty signal the wrapped loop bound lets the loop body run, and
its first access is outside the signal; signals of length 1 and 2 are
returned unchanged without entering the loop. -/
theorem remove_artifacts_short (st : State K)
    (hen : st.config_.enable_artifact_removal = true) :
    remove_artifacts st [] = none ∧ (∀ x : K, remove_artifacts st [x] = some [x]) ∧
      ∀ x y : K, remove_artifacts st [x, y] = some [x, y] := by
  refine ⟨?_, ?_, ?_⟩
  · unfold remove_artifacts
    simp only [hen, Bool.not_true, Bool.false_eq_true, if_false, List.length_nil]
    have e : (0 + 2 ^ 64 - 1) % 2 ^ 64 - 1 = 18446744073709551613 + 1 := by norm_num
    rw [e, remove_artifacts_loop]
    simp
  · intro x
    unfold remove_artifacts
    simp only [hen, Bool.not_true, Bool.false_eq_true, if_false, List.length_singleton]
    have e : (1 + 2 ^ 64 - 1) % 2 ^ 64 - 1 = 0 := by norm_num
    rw [e, remove_artifacts_loop]
  · intro x y
    unfold remove_artifacts
    simp only [hen, Bool.not_true, Bool.false_eq_true, if_false, List.length_cons,
      List.length_nil]
    have e : (0 + 1 + 1 + 2 ^ 64 - 1) % 2 ^ 64 - 1 = 0 := by norm_num
    rw [e, remove_artifacts_loop]

end Generic

/-- C15 (code at the failing input): with artifact removal enabled (default
configuration) the empty signal makes remove_artifacts enter the loop body
with i = 1 and read outside the signal (no result in the model), whereas
signals of length 1 and 2 are returned unchanged. -/
theorem C15_empty_signal_out_of_bounds :
    remove_artifacts (⟨ProcessingConfig.default, [], [], 0, 0⟩ : State ℚ) [] = none ∧
      remove_artifacts_loop (100 : ℚ) ((0 + 2 ^ 64 - 1) % 2 ^ 64 - 1) 1 [] = none ∧
      (0 + 2 ^ 64 - 1) % 2 ^ 64 = 18446744073709551615 ∧
      remove_artifacts (⟨ProcessingConfig.default, [], [], 0, 0⟩ : State ℚ) [7] = some [7] ∧
      remove_artifacts (⟨ProcessingConfig.default, [], [], 0, 0⟩ : State ℚ) [7, 900] =
        some [7, 900] :=
  ⟨(remove_artifacts_short _ rfl).1, (remove_artifacts_short
      (⟨ProcessingConfig.default, [], [], 0, 0⟩ : State ℚ) rfl).1, by norm_num,
    (remove_artifacts_short _ rfl).2.1 7, (remove_artifacts_short _ rfl).2.2 7 900⟩

section Generic

variable {K : Type} [LinearOrderedField K]

theorem process_batch_loop_eq_seq (clk : Nat → Clock) (mz : Nat → Int) :
    ∀ (raw_packets : List (List Byte)) (i : Nat) (s : State K) (acc : List (SensorReading K)),
      process_batch_loop clk mz i raw_packets s acc =
        (acc ++ (process_seq clk mz i raw_packets s).1, (process_seq clk mz i raw_packets s).2) := by
  intro raw_packets
  induction raw_packets with
  | nil =>
    intro i s acc
    simp [process_batch_loop, process_seq]
  | cons packet rest ih =>
    intro i s acc
    rw [process_batch_loop, process_seq, ih]
    simp

theorem process_seq_length (clk : Nat → Clock) (mz : Nat → Int) :
    ∀ (raw_packets : List (List Byte)) (i : Nat) (s : State K),
      (process_seq clk mz i raw_packets s).1.length = raw_packets.length := by
  intro raw_packets
  induction raw_packets with
  | nil => intro i s; rfl
  | cons packet rest ih =>
    intro i s
    rw [process_seq]
    simp [ih]

/-- A packet shorter than 20 bytes changes only the performance counters. -/
theorem process_raw_packet_short_state (clk : Clock) (mz : Int) (raw_data : List Byte)
    (s : State K) (hshort : raw_data.length < 20) :
    (process_raw_packet clk mz raw_data s).2 = update_performance_metrics clk s := by
  unfold process_raw_packet
  rw [if_pos hshort]

theorem lagThree_length (alpha : K) :
    ∀ (gs : List K) (p1 p2 p3 : K), (lagThree alpha p1 p2 p3 gs).length = gs.length := by
  intro gs
  induction gs with
  | nil => intro p1 p2 p3; rfl
  | cons g gs ih =>
    intro p1 p2 p3
    rw [lagThree]
    simp [ih]

/-- Element `k` of the recurrence: the feedback term is one of the three
starting values for `k < 3` and element `k - 3` of the output afterwards. -/
theorem lagThree_index (alpha : K) :
    ∀ (gs : List K) (p1 p2 p3 : K) (k : Nat), k < gs.length →
      (lagThree alpha p1 p2 p3 gs).getD k 0 =
        (1 - alpha) * gs.getD k 0 + alpha *
          (if k = 0 then p1 else if k = 1 then p2 else if k = 2 then p3
            else (lagThree alpha p1 p2 p3 gs).getD (k - 3) 0) := by
  intro gs
  induction gs with
  | nil => intro p1 p2 p3 k hk; cases hk
  | cons g gs ih =>
    intro p1 p2 p3 k hk
    rw [lagThree]
    cases k with
    | zero => simp
    | succ k =>
      have hk1 : k < gs.length := by simpa using hk
      simp only [List.getD_cons_succ, Nat.add_eq_zero, one_ne_zero, and_false, if_false,
        Nat.add_left_eq_self]
      rw [ih p2 p3 _ k hk1]
      rcases Nat.lt_or_ge k 3 with h3 | h3
      · interval_cases k <;> simp
      · obtain ⟨m, rfl⟩ : ∃ m, k = m + 3 := ⟨k - 3, by omega⟩
        have e1 : m + 3 + 1 - 3 = m + 1 := by omega
        simp [e1]

/-- From a state with coefficients `[1 - alpha, alpha]`, filtering enabled and
filter state `[a, p1, p2, p3]`, the values returned for the packets of at
least 20 bytes follow the recurrence started with `p1, p2, p3`; the shorter
packets are skipped. -/
theorem process_seq_lagThree (clk : Nat → Clock) (mz : Nat → Int)
    (config : ProcessingConfig K) (hf : config.enable_filtering = true) (alpha : K) :
    ∀ (raw_packets : List (List Byte)) (i : Nat) (a p1 p2 p3 t : K) (n : Nat),
      longValues raw_packets
          (process_seq clk mz i raw_packets ⟨config, [1 - alpha, alpha], [a, p1, p2, p3], t, n⟩).1 =
        lagThree alpha p1 p2 p3 (convertedValues raw_packets) := by
  intro raw_packets
  induction raw_packets with
  | nil => intro i a p1 p2 p3 t n; rfl
  | cons packet rest ih =>
    intro i a p1 p2 p3 t n
    rw [process_seq]
    by_cases hlen : 20 ≤ packet.length
    · obtain ⟨hv, hs⟩ := process_raw_packet_filtered (clk i) (mz i) packet config
        (1 - alpha) alpha a p1 p2 p3 t n hlen hf
      have hrest := ih (i + 1) p1 p2 p3
        (convert_gsr_raw_to_microsiemens (toUInt16 (word packet 0 1)) * (1 - alpha) + p1 * alpha)
        (t + ((clk i).elapsed_us : K) / 1000) (sizeSucc n)
      unfold longValues convertedValues at hrest ⊢
      simp only [hs, List.zip_cons_cons, List.filter_cons, hlen, decide_True, if_true,
        List.map_cons, hv, hrest, lagThree]
      congr 1
      · ring
      · congr 1
        ring
    · have hshort : packet.length < 20 := by omega
      have hs := process_raw_packet_short_state (clk i) (mz i) packet
        (⟨config, [1 - alpha, alpha], [a, p1, p2, p3], t, n⟩ : State K) hshort
      have hrest := ih (i + 1) a p1 p2 p3 (t + ((clk i).elapsed_us : K) / 1000) (sizeSucc n)
      unfold longValues convertedValues at hrest ⊢
      simp only [hs, update_performance_metrics, List.zip_cons_cons, List.filter_cons, hlen,
        decide_False, Bool.false_eq_true, if_false, hrest]

/-- C16: on a freshly constructed processor (filtering enabled, alpha from
the default configuration) and every sequence of packets, the values y_1,
y_2, ... returned for the packets of at least 20 bytes, with converted GSR
values g_1, g_2, ..., satisfy y_k = (1 - alpha) * g_k for the first three and
y_k = (1 - alpha) * g_k + alpha * y_(k-3) afterwards (indices below count
from 0); packets shorter than 20 bytes leave filter_state_ unchanged and are
not counted. -/
theorem C16_feedback_three_readings_earlier (exp : K → K) (pi : K) (clk : Nat → Clock)
    (mag_z_raw : Nat → Int) (raw_packets : List (List Byte)) :
    (process_batch clk mag_z_raw raw_packets (construct exp pi)).1.length = raw_packets.length ∧
      (longValues raw_packets
          (process_batch clk mag_z_raw raw_packets (construct exp pi)).1).length =
        (convertedValues raw_packets : List K).length ∧
      (∀ k, k < 3 → k < (convertedValues raw_packets : List K).length →
        (longValues raw_packets
            (process_batch clk mag_z_raw raw_packets (construct exp pi)).1).getD k 0 =
          (1 - filterAlpha exp pi ProcessingConfig.default) *
            (convertedValues raw_packets : List K).getD k 0) ∧
      (∀ k, 3 ≤ k → k < (convertedValues raw_packets : List K).length →
        (longValues raw_packets
            (process_batch clk mag_z_raw raw_packets (construct exp pi)).1).getD k 0 =
          (1 - filterAlpha exp pi ProcessingConfig.default) *
              (convertedValues raw_packets : List K).getD k 0 +
            filterAlpha exp pi ProcessingConfig.default *
              (longValues raw_packets
                (process_batch clk mag_z_raw raw_packets (construct exp pi)).1).getD (k - 3) 0) ∧
      (∀ (s : State K) (c : Clock) (m : Int) (raw_data : List Byte), raw_data.length < 20 →
        (process_raw_packet c m raw_data s).2.filter_state_ = s.filter_state_) := by
  have hb : (process_batch clk mag_z_raw raw_packets (construct exp pi)).1 =
      (process_seq clk mag_z_raw 0 raw_packets (construct exp pi)).1 := by
    unfold process_batch
    rw [process_batch_loop_eq_seq]
    simp
  have hl : longValues raw_packets
      (process_batch clk mag_z_raw raw_packets (construct exp pi)).1 =
      lagThree (filterAlpha exp pi ProcessingConfig.default) 0 0 0
        (convertedValues raw_packets) := by
    rw [hb, construct_eq]
    exact process_seq_lagThree clk mag_z_raw ProcessingConfig.default rfl _ raw_packets 0 0 0 0 0 0 0
  refine ⟨?_, ?_, ?_, ?_, ?_⟩
  · rw [hb]
    exact process_seq_length clk mag_z_raw raw_packets 0 _
  · rw [hl]
    exact lagThree_length _ _ _ _ _
  · intro k hk3 hk
    rw [hl, lagThree_index _ _ 0 0 0 k hk]
    interval_cases k <;> simp
  · intro k hk3 hk
    rw [hl, lagThree_index _ _ 0 0 0 k hk]
    have h0 : k ≠ 0 := by omega
    have h1 : k ≠ 1 := by omega
    have h2 : k ≠ 2 := by omega
    simp only [h0, h1, h2, if_false]
  · intro s c m raw_data hshort
    rw [process_raw_packet_short_state c m raw_data s hshort]
    rfl

end Generic

/-- C16 at a concrete stream over the rationals (alpha = 1/2 standing for the
exponential): four packets of 20 bytes with a shorter packet interleaved; the
fourth value is fed back from the first. -/
theorem C16_feedback_three_readings_earlier_witness :
    (longValues [gsrPacket, [1, 2, 3], gsrPacket, gsrPacket, gsrPacket]
        (process_batch (fun _ => ⟨0, 0⟩) (fun _ => 0)
          [gsrPacket, [1, 2, 3], gsrPacket, gsrPacket, gsrPacket]
          (construct (fun _ => (1 / 2 : ℚ)) 3)).1).getD 3 0 =
      (1 - filterAlpha (fun _ => (1 / 2 : ℚ)) 3 ProcessingConfig.default) *
          (convertedValues [gsrPacket, [1, 2, 3], gsrPacket, gsrPacket, gsrPacket] :
            List ℚ).getD 3 0 +
        filterAlpha (fun _ => (1 / 2 : ℚ)) 3 ProcessingConfig.default *
          (longValues [gsrPacket, [1, 2, 3], gsrPacket, gsrPacket, gsrPacket]
            (process_batch (fun _ => ⟨0, 0⟩) (fun _ => 0)
              [gsrPacket, [1, 2, 3], gsrPacket, gsrPacket, gsrPacket]
              (construct (fun _ => (1 / 2 : ℚ)) 3)).1).getD (3 - 3) 0 :=
  (C16_feedback_three_readings_earlier (fun _ => (1 / 2 : ℚ)) 3 (fun _ => ⟨0, 0⟩) (fun _ => 0)
    [gsrPacket, [1, 2, 3], gsrPacket, gsrPacket, gsrPacket]).2.2.2.1 3 (le_refl 3) (by decide)

end Shimmer

namespace Webcam

/-! ## Lemmas on the video engine -/

section Generic

variable {K : Type} [LinearOrderedField K]

theorem capture_seq_length (cv : Cv) (clk : Nat → Clock) :
    ∀ (k i : Nat) (s : State K), (capture_seq cv clk k i s).1.length = k := by
  intro k
  induction k with
  | zero => intro i s; rfl
  | succ k ih =>
    intro i s
    unfold capture_seq
    simp [ih]

/-- When the first `k` captures succeed and capture `k + 1` fails, a loop with
at least `k + 1` iterations left stops right after the failing capture. -/
theorem capture_batch_loop_first_failure (cv : Cv) (clk : Nat → Clock) :
    ∀ (k n i : Nat) (s : State K) (frames : List (FrameData K)), k ≤ n →
      (capture_seq cv clk (k + 1) i s).1.map (fun f => f.is_valid) =
        List.replicate k true ++ [false] →
      capture_batch_loop cv clk (n + 1) i s frames =
        (frames ++ (capture_seq cv clk (k + 1) i s).1, (capture_seq cv clk (k + 1) i s).2) := by
  intro k
  induction k with
  | zero =>
    intro n i s frames _ hpat
    unfold capture_seq at hpat ⊢
    unfold capture_seq at hpat ⊢
    simp only [List.map_cons, List.map_nil, List.replicate_zero, List.nil_append,
      List.cons.injEq, and_true] at hpat
    unfold capture_batch_loop
    simp [hpat]
  | succ k ih =>
    intro n i s frames hkn hpat
    obtain ⟨m, rfl⟩ : ∃ m, n = m + 1 := ⟨n - 1, by omega⟩
    unfold capture_seq at hpat ⊢
    simp only [List.map_cons, List.replicate_succ, List.cons_append, List.cons.injEq] at hpat
    unfold capture_batch_loop
    simp only [hpat.1, Bool.not_true, Bool.false_eq_true, if_false]
    rw [ih m (i + 1) _ _ (by omega) hpat.2]
    simp

/-- When all `n` captures succeed the loop performs exactly these `n`
captures. -/
theorem capture_batch_loop_all_valid (cv : Cv) (clk : Nat → Clock) :
    ∀ (n i : Nat) (s : State K) (frames : List (FrameData K)),
      (∀ f ∈ (capture_seq cv clk n i s).1, f.is_valid = true) →
      capture_batch_loop cv clk n i s frames =
        (frames ++ (capture_seq cv clk n i s).1, (capture_seq cv clk n i s).2) := by
  intro n
  induction n with
  | zero =>
    intro i s frames _
    unfold capture_seq capture_batch_loop
    simp
  | succ n ih =>
    intro i s frames hall
    unfold capture_seq at hall ⊢
    simp only [List.mem_cons, forall_eq_or_imp] at hall
    unfold capture_batch_loop
    simp only [hall.1, Bool.not_true, Bool.false_eq_true, if_false]
    rw [ih (i + 1) _ _ hall.2]
    simp

/-- Among `n` successive captures either some capture `k` is the first to
fail or all succeed. -/
theorem capture_seq_cases (cv : Cv) (clk : Nat → Clock) :
    ∀ (n i : Nat) (s : State K),
      (∃ k, k < n ∧ (capture_seq cv clk (k + 1) i s).1.map (fun f => f.is_valid) =
          List.replicate k true ++ [false]) ∨
        (∀ f ∈ (capture_seq cv clk n i s).1, f.is_valid = true) := by
  intro n
  induction n with
  | zero =>
    intro i s
    right
    intro f hf
    cases hf
  | succ n ih =>
    intro i s
    by_cases hv : (capture_frame cv (clk i) s).1.is_valid = true
    · rcases ih (i + 1) (capture_frame cv (clk i) s).2 with ⟨k, hk, hpat⟩ | hall
      · left
        refine ⟨k + 1, by omega, ?_⟩
        rw [capture_seq]
        simp only [List.map_cons, List.replicate_succ, List.cons_append, hv, hpat]
      · right
        rw [capture_seq]
        intro f hf
        rcases List.mem_cons.mp hf with h | h
        · rw [h]; exact hv
        · exact hall f h
    · left
      refine ⟨0, by omega, ?_⟩
      rw [capture_seq, capture_seq]
      simpa using hv

theorem natAbsDiff_cast (x y : Nat) :
    (((if x ≥ y then x - y else y - x : Nat) : Nat) : K) = abs ((x : K) - (y : K)) := by
  by_cases h : x ≥ y
  · rw [if_pos h, Nat.cast_sub h, abs_of_nonneg]
    exact sub_nonneg.mpr (Nat.cast_le.mpr h)
  · have h1 : x ≤ y := by omega
    rw [if_neg h, Nat.cast_sub h1, abs_of_nonpos, neg_sub]
    exact sub_nonpos.mpr (Nat.cast_le.mpr h1)

/-- The count of non-zero pixels after `absdiff` and `threshold` is the
number of positions whose absolute difference exceeds the threshold. -/
theorem countNonZero_threshold_absdiff (thr : K) (a b : Mat) :
    countNonZero (threshold (absdiff a b) thr 255) = changedPixels thr a.data b.data := by
  unfold countNonZero threshold absdiff
  simp only
  generalize a.data = xs
  generalize b.data = ys
  induction xs generalizing ys with
  | nil => simp [changedPixels]
  | cons x xs ih =>
    cases ys with
    | nil => simp [changedPixels]
    | cons y ys =>
      simp only [List.zipWith_cons_cons, List.map_cons, List.countP_cons, changedPixels]
      rw [ih ys, natAbsDiff_cast, Nat.add_comm]
      by_cases h : abs ((x : K) - (y : K)) > thr <;> simp [h]

theorem changedPixels_self (thr : K) (hthr : 0 ≤ thr) :
    ∀ d : List Nat, changedPixels thr d d = 0 := by
  intro d
  induction d with
  | nil => rfl
  | cons x xs ih =>
    simp only [changedPixels, ih, sub_self, abs_zero, gt_iff_lt, not_lt.mpr hthr, if_false]

theorem not_empty_of_size {m : Mat} (hsize : m.rows * m.cols ≠ 0)
    (hdata : m.data.length = m.rows * m.cols) : m.empty = false := by
  unfold Mat.empty
  have h1 : m.data ≠ [] := by
    intro h
    rw [h] at hdata
    exact hsize hdata.symm
  simp [hsize, h1]

theorem changedPixels_le (thr : K) :
    ∀ a b : List Nat, changedPixels thr a b ≤ a.length := by
  intro a
  induction a with
  | nil => intro b; simp [changedPixels]
  | cons x xs ih =>
    intro b
    cases b with
    | nil => simp [changedPixels]
    | cons y ys =>
      have h := ih ys
      simp only [changedPixels, List.length_cons]
      split_ifs <;> omega

/-- The result of `detect_motion` on two non-empty frames that need no
grayscale conversion, in terms of the `int` count and the `int` product. -/
theorem detect_motion_value (cv : Cv) (s : State K) (current previous : Mat)
    (hc : current.empty = false) (hp : previous.empty = false)
    (hc3 : current.channels ≠ 3) (hp3 : previous.channels ≠ 3) :
    (detect_motion cv current previous s).1 =
      if toInt32 (current.rows * current.cols) = 0 then
        decide (0 < toInt32 (changedPixels s.config_.motion_threshold current.data previous.data))
      else
        decide ((((toInt32 (changedPixels s.config_.motion_threshold current.data
          previous.data) : Int) : K) * 100) /
            ((toInt32 (current.rows * current.cols) : Int) : K) > 1) := by
  unfold detect_motion
  simp only [hc, hp, Bool.or_self, Bool.false_eq_true, if_false, beq_iff_eq, hc3, hp3,
    countNonZero_threshold_absdiff]
  rfl

/-- The result of `detect_motion` on two non-empty frames of fewer than 2^31
pixels that need no grayscale conversion. -/
theorem detect_motion_gray (cv : Cv) (s : State K) (current previous : Mat)
    (hc : current.empty = false) (hp : previous.empty = false)
    (hc3 : current.channels ≠ 3) (hp3 : previous.channels ≠ 3)
    (hsize : current.rows * current.cols ≠ 0) (hbound : current.rows * current.cols < 2 ^ 31)
    (hcdata : current.data.length = current.rows * current.cols) :
    ((detect_motion cv current previous s).1 = true ↔
      100 * changedPixels s.config_.motion_threshold current.data previous.data >
        current.rows * current.cols) := by
  have hN : changedPixels s.config_.motion_threshold current.data previous.data < 2 ^ 31 := by
    have := changedPixels_le s.config_.motion_threshold current.data previous.data
    omega
  rw [detect_motion_value cv s current previous hc hp hc3 hp3, toInt32_eq hbound, toInt32_eq hN]
  have hne : ((current.rows * current.cols : Nat) : Int) ≠ 0 := by
    exact_mod_cast hsize
  rw [if_neg hne, decide_eq_true_eq]
  have hpos : (0 : K) < ((current.rows * current.cols : Nat) : K) :=
    Nat.cast_pos.mpr (Nat.pos_of_ne_zero hsize)
  simp only [Int.cast_natCast]
  show 1 < _ / ((current.rows * current.cols : Nat) : K) ↔ _
  rw [one_lt_div hpos]
  constructor
  · intro h
    have h' : ((current.rows * current.cols : Nat) : K) <
        ((100 * changedPixels s.config_.motion_threshold current.data previous.data : Nat) : K) := by
      push_cast
      push_cast at h
      linarith
    exact Nat.cast_lt.mp h'
  · intro h
    have h' : ((current.rows * current.cols : Nat) : K) <
        ((100 * changedPixels s.config_.motion_threshold current.data previous.data : Nat) : K) :=
      Nat.cast_lt.mpr h
    push_cast at h'
    push_cast
    linarith

/-- A 65536 x 65536 frame pair differing in the first pixel only: the `int`
product `rows * cols` wraps to 0 and motion is reported for any threshold
from 0 to below 255, while the changed pixels are one in 2^32. -/
theorem detect_motion_wrapped (cv : Cv) (s : State K) (rest : List Nat)
    (h0 : 0 ≤ s.config_.motion_threshold) (h255 : s.config_.motion_threshold < 255) :
    (detect_motion cv ⟨65536, 65536, 1, 255 :: rest⟩ ⟨65536, 65536, 1, 0 :: rest⟩ s).1 = true ∧
      changedPixels s.config_.motion_threshold (255 :: rest) (0 :: rest) = 1 := by
  have hN : changedPixels s.config_.motion_threshold (255 :: rest) (0 :: rest) = 1 := by
    have h : abs (((255 : Nat) : K) - ((0 : Nat) : K)) > s.config_.motion_threshold := by
      have e : abs (((255 : Nat) : K) - ((0 : Nat) : K)) = 255 := by norm_num
      rw [e]
      exact h255
    rw [changedPixels, if_pos h, changedPixels_self _ h0]
  refine ⟨?_, hN⟩
  have he1 : Mat.empty ⟨65536, 65536, 1, 255 :: rest⟩ = false := rfl
  have he2 : Mat.empty ⟨65536, 65536, 1, 0 :: rest⟩ = false := rfl
  have hc1 : (⟨65536, 65536, 1, 255 :: rest⟩ : Mat).channels ≠ 3 := fun h => by cases h
  have hc2 : (⟨65536, 65536, 1, 0 :: rest⟩ : Mat).channels ≠ 3 := fun h => by cases h
  rw [detect_motion_value cv s _ _ he1 he2 hc1 hc2]
  simp only [hN]
  have e1 : toInt32 (65536 * 65536) = 0 := by decide
  have e2 : toInt32 1 = 1 := by decide
  rw [e1, e2]
  simp

/-- C3 (amended): for every n for which frames.reserve(n) returns
(n <= max_size), capture_batch(n) returns the records of successive
capture_frame calls up to and including the first invalid one.
capture_batch(0) is empty; if capture k (1 <= k <= n) is the first to fail
the result is exactly the k records of the first k captures, k-1 valid then
one invalid, and the engine is in the state after k captures (no further
capture); if none of the first n fails the result is the n records, all valid;
one of the two cases always applies; and for n > max_size the call throws
before any capture. -/
theorem C3_capture_batch_fail_fast (cv : Cv) (max_size : Nat) (clk : Nat → Clock) (s : State K)
    (n : Nat) :
    capture_batch cv max_size clk 0 s = some ([], s) ∧
      (n ≤ max_size → ∀ k, 1 ≤ k → k ≤ n →
        (capture_seq cv clk k 0 s).1.map (fun f => f.is_valid) =
          List.replicate (k - 1) true ++ [false] →
        capture_batch cv max_size clk n s = some (capture_seq cv clk k 0 s) ∧
          (capture_seq cv clk k 0 s).1.length = k) ∧
      (n ≤ max_size → (∀ f ∈ (capture_seq cv clk n 0 s).1, f.is_valid = true) →
        capture_batch cv max_size clk n s = some (capture_seq cv clk n 0 s) ∧
          (capture_seq cv clk n 0 s).1.length = n) ∧
      ((∃ k, 1 ≤ k ∧ k ≤ n ∧ (capture_seq cv clk k 0 s).1.map (fun f => f.is_valid) =
          List.replicate (k - 1) true ++ [false]) ∨
        (∀ f ∈ (capture_seq cv clk n 0 s).1, f.is_valid = true)) ∧
      (max_size < n → capture_batch cv max_size clk n s = none) := by
  refine ⟨?_, ?_, ?_, ?_, ?_⟩
  · unfold capture_batch
    rw [if_neg (by omega)]
    rfl
  · intro hn k hk1 hkn hpat
    have hnot : ¬ n > max_size := by omega
    obtain ⟨j, rfl⟩ : ∃ j, k = j + 1 := ⟨k - 1, by omega⟩
    obtain ⟨m, rfl⟩ : ∃ m, n = m + 1 := ⟨n - 1, by omega⟩
    have hpat1 : (capture_seq cv clk (j + 1) 0 s).1.map (fun f => f.is_valid) =
        List.replicate j true ++ [false] := by simpa using hpat
    refine ⟨?_, capture_seq_length cv clk _ _ _⟩
    unfold capture_batch
    rw [if_neg hnot, capture_batch_loop_first_failure cv clk j m 0 s [] (by omega) hpat1]
    simp
  · intro hn hall
    have hnot : ¬ n > max_size := by omega
    refine ⟨?_, capture_seq_length cv clk _ _ _⟩
    unfold capture_batch
    rw [if_neg hnot, capture_batch_loop_all_valid cv clk n 0 s [] hall]
    simp
  · rcases capture_seq_cases cv clk n 0 s with ⟨k, hk, hpat⟩ | hall
    · left
      exact ⟨k + 1, by omega, by omega, by simpa using hpat⟩
    · exact Or.inr hall
  · intro hn
    unfold capture_batch
    rw [if_pos hn]

/-- C3 as stated fails: capture_batch(2^64 - 1) exceeds every vector's
max_size (at most 2^63 - 1), so frames.reserve throws and no record is
returned, although the first capture would succeed. -/
theorem C3_reserve_throws_counterexample :
    capture_batch cvPlain 9223372036854775807 (fun _ => ⟨0, 0⟩) 18446744073709551615
        thirdReadFails = none ∧
      (capture_frame cvPlain ⟨0, 0⟩ thirdReadFails).1.is_valid = true := by
  constructor
  · unfold capture_batch
    rw [if_pos (by decide)]
  · decide

/-- C3 at the spec's example: capture_batch(5) with the third capture failing
returns exactly the records of three captures, two valid and the last
invalid, after three reads of the device. -/
theorem C3_capture_batch_fail_fast_witness :
    capture_batch cvPlain 9223372036854775807 (fun _ => ⟨0, 0⟩) 5 thirdReadFails =
        some (capture_seq cvPlain (fun _ => ⟨0, 0⟩) 3 0 thirdReadFails) ∧
      (capture_seq cvPlain (fun _ => ⟨0, 0⟩) 3 0 thirdReadFails).1.length = 3 ∧
      (capture_seq cvPlain (fun _ => ⟨0, 0⟩) 3 0 thirdReadFails).1.map (fun f => f.is_valid) =
        [true, true, false] ∧
      (capture_seq cvPlain (fun _ => ⟨0, 0⟩) 3 0 thirdReadFails).2.camera_.reads_done = 3 := by
  have h := (C3_capture_batch_fail_fast cvPlain 9223372036854775807 (fun _ => ⟨0, 0⟩)
    thirdReadFails 5).2.1 (by decide) 3 (by decide) (by decide) (by decide)
  exact ⟨h.1, h.2, by decide, rfl⟩

/-- C6 (amended): for two single-channel frames of the same non-zero size
rows x cols with rows * cols < 2^31 (the product is an int), detect_motion is
true exactly when 100 * N > rows * cols, N being
the number of positions whose absolute difference is strictly greater than
motion_threshold; so exactly 1% over threshold gives false and exactly 2%
gives true; two identical frames give false when motion_threshold >= 0; and
if either frame is empty the result is false. -/
theorem C6_detect_motion_boundary (cv : Cv) (s : State K) (current previous : Mat)
    (hc1 : current.channels = 1) (hp1 : previous.channels = 1)
    (hrows : previous.rows = current.rows) (hcols : previous.cols = current.cols)
    (hsize : current.rows * current.cols ≠ 0) (hbound : current.rows * current.cols < 2 ^ 31)
    (hcdata : current.data.length = current.rows * current.cols)
    (hpdata : previous.data.length = previous.rows * previous.cols) :
    ((detect_motion cv current previous s).1 = true ↔
        100 * changedPixels s.config_.motion_threshold current.data previous.data >
          current.rows * current.cols) ∧
      (100 * changedPixels s.config_.motion_threshold current.data previous.data =
          current.rows * current.cols → (detect_motion cv current previous s).1 = false) ∧
      (100 * changedPixels s.config_.motion_threshold current.data previous.data =
          2 * (current.rows * current.cols) → (detect_motion cv current previous s).1 = true) ∧
      (0 ≤ s.config_.motion_threshold → (detect_motion cv current current s).1 = false) ∧
      (∀ a b : Mat, a.empty = true ∨ b.empty = true → (detect_motion cv a b s).1 = false) := by
  have hce := not_empty_of_size hsize hcdata
  have hpe : previous.empty = false :=
    not_empty_of_size (by rw [hrows, hcols]; exact hsize) hpdata
  have hc3 : current.channels ≠ 3 := by rw [hc1]; decide
  have hp3 : previous.channels ≠ 3 := by rw [hp1]; decide
  have hiff := detect_motion_gray cv s current previous hce hpe hc3 hp3 hsize hbound hcdata
  refine ⟨hiff, ?_, ?_, ?_, ?_⟩
  · intro h
    rw [← Bool.not_eq_true, hiff]
    omega
  · intro h
    rw [hiff]
    have := Nat.pos_of_ne_zero hsize
    omega
  · intro hthr
    rw [← Bool.not_eq_true,
      detect_motion_gray cv s current current hce hce hc3 hc3 hsize hbound hcdata,
      changedPixels_self _ hthr]
    omega
  · intro a b hab
    unfold detect_motion
    rcases hab with h | h <;> simp [h]

end Generic

/-- C6 as stated fails: with motion_threshold = -1 every pixel of the
difference of two identical 1x1 frames is over the threshold, and
detect_motion reports motion; and for two 65536 x 65536 frames differing in
one pixel (threshold 30) the int product rows * cols wraps to 0 and motion is
reported although 100 * 1 is not above 65536 * 65536. -/
theorem C6_identical_frames_counterexample :
    (detect_motion cvPlain ⟨1, 1, 1, [0]⟩ ⟨1, 1, 1, [0]⟩ negativeThreshold).1 = true ∧
      (detect_motion cvPlain ⟨65536, 65536, 1, 255 :: List.replicate 4294967295 0⟩
        ⟨65536, 65536, 1, 0 :: List.replicate 4294967295 0⟩ thirdReadFails).1 = true ∧
      ¬ (100 * changedPixels thirdReadFails.config_.motion_threshold
          (255 :: List.replicate 4294967295 0) (0 :: List.replicate 4294967295 0) >
        65536 * 65536) := by
  have hw := detect_motion_wrapped cvPlain thirdReadFails (List.replicate 4294967295 0)
    (by simp [thirdReadFails]) (by simp [thirdReadFails]; norm_num)
  refine ⟨?_, hw.1, ?_⟩
  · simp [detect_motion, Mat.empty, negativeThreshold, thirdReadFails, countNonZero, threshold,
      absdiff, toInt32]
  · rw [hw.2]
    decide

/-- C6 at concrete frames over the rationals: 10x10 frames, threshold 30, two
pixels of one hundred differing by 200 (2%): motion is reported. -/
theorem C6_detect_motion_boundary_witness :
    100 * changedPixels (30 : ℚ) (200 :: 200 :: List.replicate 98 0) (List.replicate 100 0) =
        2 * (10 * 10) ∧
      (detect_motion cvPlain ⟨10, 10, 1, 200 :: 200 :: List.replicate 98 0⟩
        ⟨10, 10, 1, List.replicate 100 0⟩ thirdReadFails).1 = true := by
  have hN : 100 * changedPixels (30 : ℚ) (200 :: 200 :: List.replicate 98 0)
      (List.replicate 100 0) = 2 * (10 * 10) := by
    have h0 : ∀ n : Nat, changedPixels (30 : ℚ) (List.replicate n 0) (List.replicate n 0) = 0 :=
      fun n => changedPixels_self 30 (by norm_num) _
    have e : List.replicate 100 (0 : Nat) = 0 :: 0 :: List.replicate 98 0 := by
      simp [List.replicate_succ]
    rw [e]
    simp only [changedPixels, h0]
    norm_num
  have hsize : (10 : Nat) * 10 ≠ 0 := by decide
  have hc : (200 :: 200 :: List.replicate 98 (0 : Nat)).length = 10 * 10 := by
    simp only [List.length_cons, List.length_replicate]
  have hp : (List.replicate 100 (0 : Nat)).length = 10 * 10 := by
    simp only [List.length_replicate]
  have h := (C6_detect_motion_boundary cvPlain thirdReadFails
    ⟨10, 10, 1, 200 :: 200 :: List.replicate 98 0⟩ ⟨10, 10, 1, List.replicate 100 0⟩
    rfl rfl rfl rfl hsize (by decide) hc hp).2.2.1
  dsimp only [thirdReadFails] at h
  exact ⟨hN, h hN⟩

section Generic

variable {K : Type} [LinearOrderedField K]

theorem detect_motion_counters (cv : Cv) (a b : Mat) (s : State K) :
    (detect_motion cv a b s).2.frames_processed_ = s.frames_processed_ ∧
      (detect_motion cv a b s).2.frames_dropped_ = s.frames_dropped_ := by
  unfold detect_motion
  split <;> exact ⟨rfl, rfl⟩

/-- The failing paths of `capture_frame`. -/
theorem capture_frame_failure (cv : Cv) (clk : Clock) (s : State K) (h : captureFails s) :
    (capture_frame cv clk s).1.is_valid = false ∧
      (capture_frame cv clk s).2.frames_dropped_ = sizeSucc s.frames_dropped_ ∧
      (capture_frame cv clk s).2.frames_processed_ = sizeSucc s.frames_processed_ ∧
      (capture_frame cv clk s).1.frame_number = toInt32 s.frames_processed_ := by
  unfold capture_frame
  by_cases ho : s.camera_.isOpened = true
  · have hr : (!(s.camera_.reads s.camera_.reads_done).1 ||
        (s.camera_.reads s.camera_.reads_done).2.empty) = true := by
      rcases h with h | h | h
      · rw [h] at ho; cases ho
      · simp [h]
      · simp [h]
    simp [ho, hr, update_performance_metrics]
  · simp only [Bool.not_eq_true] at ho
    simp [ho, update_performance_metrics]

/-- The successful path of `capture_frame`. -/
theorem capture_frame_success (cv : Cv) (clk : Clock) (s : State K) (h : ¬ captureFails s) :
    (capture_frame cv clk s).1.is_valid = true ∧
      (capture_frame cv clk s).2.frames_dropped_ = s.frames_dropped_ ∧
      (capture_frame cv clk s).2.frames_processed_ = sizeSucc s.frames_processed_ ∧
      (capture_frame cv clk s).1.frame_number = toInt32 s.frames_processed_ := by
  unfold captureFails at h
  simp only [not_or, Bool.not_eq_false, Bool.not_eq_true] at h
  obtain ⟨ho, hs, he⟩ := h
  unfold capture_frame
  simp only [ho, hs, he, Bool.not_true, Bool.false_eq_true, if_false, Bool.or_self, true_and]
  constructor
  · split_ifs <;> simp [update_performance_metrics, detect_motion_counters]
  · split_ifs <;> simp [update_performance_metrics, detect_motion_counters]

/-- Counters and frame numbers over `k` successive captures that do not
overflow the `size_t` counters. -/
theorem capture_seq_counters (cv : Cv) (clk : Nat → Clock) :
    ∀ (k i : Nat) (s : State K), s.frames_dropped_ ≤ s.frames_processed_ →
      s.frames_processed_ + k < 2 ^ 64 →
      (capture_seq cv clk k i s).2.frames_processed_ = s.frames_processed_ + k ∧
        (capture_seq cv clk k i s).2.frames_dropped_ ≤
          (capture_seq cv clk k i s).2.frames_processed_ ∧
        (capture_seq cv clk k i s).1.map (fun f => f.frame_number) =
          (List.range' s.frames_processed_ k).map toInt32 := by
  intro k
  induction k with
  | zero =>
    intro i s hd _
    exact ⟨rfl, hd, rfl⟩
  | succ k ih =>
    intro i s hd hb
    have hp : (capture_frame cv (clk i) s).2.frames_processed_ = s.frames_processed_ + 1 ∧
        (capture_frame cv (clk i) s).2.frames_dropped_ ≤ s.frames_processed_ + 1 ∧
        (capture_frame cv (clk i) s).1.frame_number = toInt32 s.frames_processed_ := by
      by_cases hfail : captureFails s
      · obtain ⟨_, h1, h2, h3⟩ := capture_frame_failure cv (clk i) s hfail
        rw [h1, h2, sizeSucc_eq (by omega), sizeSucc_eq (by omega)]
        exact ⟨rfl, by omega, h3⟩
      · obtain ⟨_, h1, h2, h3⟩ := capture_frame_success cv (clk i) s hfail
        rw [h1, h2, sizeSucc_eq (by omega)]
        exact ⟨rfl, by omega, h3⟩
    obtain ⟨hp1, hp2, hp3⟩ := hp
    obtain ⟨h1, h2, h3⟩ := ih (i + 1) (capture_frame cv (clk i) s).2 (by omega) (by omega)
    rw [capture_seq]
    refine ⟨by rw [h1, hp1]; omega, h2, ?_⟩
    simp only [List.map_cons, h3, hp3, hp1, List.range'_succ]

/-- A batch whose reservation returns is some number `k <= count` of
successive captures. -/
theorem capture_batch_eq_seq (cv : Cv) (max_size : Nat) (clk : Nat → Clock) (count : Nat)
    (s : State K) (hcount : count ≤ max_size) :
    ∃ k, k ≤ count ∧ capture_batch cv max_size clk count s = some (capture_seq cv clk k 0 s) := by
  have hnot : ¬ count > max_size := by omega
  rcases capture_seq_cases cv clk count 0 s with ⟨k, hk, hpat⟩ | hall
  · obtain ⟨m, rfl⟩ : ∃ m, count = m + 1 := ⟨count - 1, by omega⟩
    refine ⟨k + 1, by omega, ?_⟩
    unfold capture_batch
    rw [if_neg hnot, capture_batch_loop_first_failure cv clk k m 0 s [] (by omega) hpat]
    simp
  · refine ⟨count, le_refl _, ?_⟩
    unfold capture_batch
    rw [if_neg hnot, capture_batch_loop_all_valid cv clk count 0 s [] hall]
    simp

theorem initialize_camera_counters (opens : Bool) (s : State K) :
    (initialize_camera opens s).2.frames_processed_ = s.frames_processed_ ∧
      (initialize_camera opens s).2.frames_dropped_ = s.frames_dropped_ := by
  cases opens <;> cases h1 : s.camera_.isOpened <;>
    cases h2 : s.config_.enable_motion_detection <;>
    simp [initialize_camera, release_camera, initialize_motion_detection,
      set_camera_properties, h1, h2]

theorem release_camera_counters (s : State K) :
    (release_camera s).frames_processed_ = s.frames_processed_ ∧
      (release_camera s).frames_dropped_ = s.frames_dropped_ := by
  unfold release_camera
  split_ifs <;> exact ⟨rfl, rfl⟩

theorem configure_counters (config : ProcessingConfig K) (s : State K) :
    (configure config s).frames_processed_ = s.frames_processed_ ∧
      (configure config s).frames_dropped_ = s.frames_dropped_ := by
  cases h1 : s.camera_.isOpened <;> simp [configure, set_camera_properties, h1]

/-- One call keeps `frames_dropped <= frames_processed`, raises
`frames_processed` by at most its capture cost and, unless it is the reset,
returns records numbered consecutively from the old `frames_processed`. -/
theorem engine_step_inv (cv : Cv) (max_size : Nat) (s : State K) (op : Op K)
    (hd : s.frames_dropped_ ≤ s.frames_processed_)
    (hb : s.frames_processed_ + captureCost op < 2 ^ 64) :
    (step cv max_size s op).2.frames_dropped_ ≤ (step cv max_size s op).2.frames_processed_ ∧
      (step cv max_size s op).2.frames_processed_ ≤ s.frames_processed_ + captureCost op ∧
      (op ≠ Op.reset_performance_counters →
        s.frames_processed_ ≤ (step cv max_size s op).2.frames_processed_ ∧
          (step cv max_size s op).1.map (fun f => f.frame_number) =
            (List.range' s.frames_processed_
              ((step cv max_size s op).2.frames_processed_ - s.frames_processed_)).map toInt32) := by
  cases op with
  | initialize_camera opens =>
    obtain ⟨h1, h2⟩ := initialize_camera_counters opens s
    simp only [step, h1, h2, captureCost]
    exact ⟨hd, by omega, fun _ => ⟨le_refl _, by simp⟩⟩
  | release_camera =>
    obtain ⟨h1, h2⟩ := release_camera_counters s
    simp only [step, h1, h2, captureCost]
    exact ⟨hd, by omega, fun _ => ⟨le_refl _, by simp⟩⟩
  | configure config =>
    obtain ⟨h1, h2⟩ := configure_counters config s
    simp only [step, h1, h2, captureCost]
    exact ⟨hd, by omega, fun _ => ⟨le_refl _, by simp⟩⟩
  | capture_frame clk =>
    have hseq : step cv max_size s (Op.capture_frame clk) = capture_seq cv (fun _ => clk) 1 0 s := rfl
    obtain ⟨h1, h2, h3⟩ := capture_seq_counters cv (fun _ => clk) 1 0 s hd hb
    rw [hseq, h1]
    refine ⟨by rw [← h1]; exact h2, by simp [captureCost], fun _ => ⟨by omega, ?_⟩⟩
    rw [h3]
    simp
  | capture_batch clk count =>
    by_cases hcount : count ≤ max_size
    · obtain ⟨k, hk, hseq⟩ := capture_batch_eq_seq cv max_size clk count s hcount
      have hstep : step cv max_size s (Op.capture_batch clk count) =
          capture_seq cv clk k 0 s := by
        simp only [step, hseq]
      simp only [captureCost] at hb ⊢
      obtain ⟨h1, h2, h3⟩ := capture_seq_counters cv clk k 0 s hd (by omega)
      rw [hstep, h1]
      refine ⟨by rw [← h1]; exact h2, by omega, fun _ => ⟨by omega, ?_⟩⟩
      rw [h3]
      simp
    · have hthrow : capture_batch cv max_size clk count s = none := by
        unfold capture_batch
        rw [if_pos (by omega)]
      have hstep : step cv max_size s (Op.capture_batch clk count) = ([], s) := by
        simp only [step, hthrow]
      rw [hstep]
      exact ⟨hd, Nat.le_add_right _ _, fun _ => ⟨le_refl _, by simp⟩⟩
  | set_master_clock_offset offset_ms =>
    simp only [step, set_master_clock_offset, captureCost]
    exact ⟨hd, by omega, fun _ => ⟨le_refl _, by simp⟩⟩
  | get_performance_metrics =>
    simp only [step, captureCost]
    exact ⟨hd, by omega, fun _ => ⟨le_refl _, by simp⟩⟩
  | reset_performance_counters =>
    simp only [step, reset_performance_counters, captureCost]
    exact ⟨le_refl _, by omega, fun h => absurd rfl h⟩

theorem run_append_singleton (cv : Cv) (max_size : Nat) (s : State K) (ops : List (Op K)) (op : Op K) :
    run cv max_size s (ops ++ [op]) =
      ((run cv max_size s ops).1 ++ (step cv max_size (run cv max_size s ops).2 op).1, (step cv max_size (run cv max_size s ops).2 op).2) := by
  unfold run
  rw [List.foldl_append]
  rfl

theorem captureBudget_append_singleton (ops : List (Op K)) (op : Op K) :
    captureBudget (ops ++ [op]) = captureBudget ops + captureCost op := by
  unfold captureBudget
  simp

/-- Every sequence of calls that cannot overflow the counters keeps
`frames_dropped <= frames_processed`; without a reset the records returned
are numbered consecutively from the starting `frames_processed`. -/
theorem engine_run_inv (cv : Cv) (max_size : Nat) (s : State K) (hd : s.frames_dropped_ ≤ s.frames_processed_) :
    ∀ ops : List (Op K), s.frames_processed_ + captureBudget ops < 2 ^ 64 →
      (run cv max_size s ops).2.frames_dropped_ ≤ (run cv max_size s ops).2.frames_processed_ ∧
        (run cv max_size s ops).2.frames_processed_ ≤ s.frames_processed_ + captureBudget ops ∧
        (Op.reset_performance_counters ∉ ops →
          s.frames_processed_ ≤ (run cv max_size s ops).2.frames_processed_ ∧
            (run cv max_size s ops).1.map (fun f => f.frame_number) =
              (List.range' s.frames_processed_
                ((run cv max_size s ops).2.frames_processed_ - s.frames_processed_)).map toInt32) := by
  intro ops
  induction ops using List.reverseRecOn with
  | nil =>
    intro _
    exact ⟨hd, by simp [run, captureBudget], fun _ => ⟨le_refl _, by simp [run]⟩⟩
  | append_singleton ops op ih =>
    intro hb
    rw [captureBudget_append_singleton] at hb ⊢
    obtain ⟨h1, h2, h3⟩ := ih (by omega)
    obtain ⟨g1, g2, g3⟩ := engine_step_inv cv max_size (run cv max_size s ops).2 op h1 (by omega)
    rw [run_append_singleton]
    refine ⟨g1, ?_, ?_⟩
    · show (step cv max_size (run cv max_size s ops).2 op).2.frames_processed_ ≤ _
      omega
    intro hno
    have hno1 : Op.reset_performance_counters ∉ ops := fun h => hno (List.mem_append_left _ h)
    have hop : op ≠ Op.reset_performance_counters := by
      intro h
      apply hno
      rw [h]
      simp
    obtain ⟨k1, k2⟩ := h3 hno1
    obtain ⟨k3, k4⟩ := g3 hop
    refine ⟨?_, ?_⟩
    · show _ ≤ (step cv max_size (run cv max_size s ops).2 op).2.frames_processed_
      omega
    show List.map (fun f => f.frame_number)
        ((run cv max_size s ops).1 ++ (step cv max_size (run cv max_size s ops).2 op).1) =
      List.map toInt32 (List.range' s.frames_processed_
        ((step cv max_size (run cv max_size s ops).2 op).2.frames_processed_ - s.frames_processed_))
    simp only [List.map_append, k2, k4]
    rw [← List.map_append]
    congr 1
    have e : (run cv max_size s ops).2.frames_processed_ =
        s.frames_processed_ + 1 * ((run cv max_size s ops).2.frames_processed_ - s.frames_processed_) := by
      omega
    have h := List.range'_append s.frames_processed_
      ((run cv max_size s ops).2.frames_processed_ - s.frames_processed_)
      ((step cv max_size (run cv max_size s ops).2 op).2.frames_processed_ - (run cv max_size s ops).2.frames_processed_) 1
    rw [← e] at h
    rw [h]
    congr 1
    omega

/-- C13: for every engine state s reached from construction by public calls
(which can perform fewer than 2^64 - 1 captures, as in any execution), if no
device is active, or the device read fails or yields an empty frame,
capture_frame returns (the function is total) a record with is_valid = false
and increments frames_dropped by exactly one; on a successful non-empty read,
the OpenCV operations returning, it returns a record with is_valid = true and
leaves frames_dropped unchanged. In both cases frames_processed increases by
exactly one, and frames_dropped <= frames_processed holds in s and after the
call. -/
theorem C13_capture_frame_counters (cv : Cv) (max_size : Nat) (reads : Nat → Bool × Mat)
    (color_space : Int) (ops : List (Op K)) (hb : captureBudget ops + 1 < 2 ^ 64)
    (s : State K) (hs : s = (run cv max_size (construct reads color_space) ops).2)
    (clk : Clock) :
    (captureFails s →
        (capture_frame cv clk s).1.is_valid = false ∧
          (capture_frame cv clk s).2.frames_dropped_ = s.frames_dropped_ + 1) ∧
      (¬ captureFails s →
        (capture_frame cv clk s).1.is_valid = true ∧
          (capture_frame cv clk s).2.frames_dropped_ = s.frames_dropped_) ∧
      (capture_frame cv clk s).2.frames_processed_ = s.frames_processed_ + 1 ∧
      s.frames_dropped_ ≤ s.frames_processed_ ∧
      (capture_frame cv clk s).2.frames_dropped_ ≤ (capture_frame cv clk s).2.frames_processed_ := by
  have hinv := engine_run_inv cv max_size (construct reads color_space : State K) (le_refl _) ops
    (by
      have : (construct reads color_space : State K).frames_processed_ = 0 := rfl
      rw [this]
      omega)
  have h0 : (construct reads color_space : State K).frames_processed_ = 0 := rfl
  rw [← hs, h0] at hinv
  obtain ⟨hd, hp, _⟩ := hinv
  have hproc : (capture_frame cv clk s).2.frames_processed_ = s.frames_processed_ + 1 := by
    have h : (capture_frame cv clk s).2.frames_processed_ = sizeSucc s.frames_processed_ := by
      by_cases h : captureFails s
      · exact (capture_frame_failure cv clk s h).2.2.1
      · exact (capture_frame_success cv clk s h).2.2.1
    rw [h, sizeSucc_eq (by omega)]
  have hfail : captureFails s →
      (capture_frame cv clk s).1.is_valid = false ∧
        (capture_frame cv clk s).2.frames_dropped_ = s.frames_dropped_ + 1 := by
    intro h
    obtain ⟨h1, h2, _, _⟩ := capture_frame_failure cv clk s h
    exact ⟨h1, by rw [h2, sizeSucc_eq (by omega)]⟩
  have hsucc : ¬ captureFails s →
      (capture_frame cv clk s).1.is_valid = true ∧
        (capture_frame cv clk s).2.frames_dropped_ = s.frames_dropped_ := by
    intro h
    obtain ⟨h1, h2, _, _⟩ := capture_frame_success cv clk s h
    exact ⟨h1, h2⟩
  refine ⟨hfail, hsucc, hproc, hd, ?_⟩
  by_cases h : captureFails s
  · rw [(hfail h).2, hproc]
    omega
  · rw [(hsucc h).2, hproc]
    omega

/-- C14 (amended): for one engine instance and every sequence of public
operations that contains no reset_performance_counters and can perform at
most 2^31 captures, every record returned has a frame_number strictly greater
than that of every record returned earlier: the numbers are 0, 1, 2, ... in
order of return; after reset_performance_counters the next record is numbered
0 again. -/
theorem C14_frame_numbers_increase (cv : Cv) (max_size : Nat) (reads : Nat → Bool × Mat)
    (color_space : Int) (ops : List (Op K)) (hno : Op.reset_performance_counters ∉ ops)
    (hb : captureBudget ops ≤ 2 ^ 31) :
    List.Pairwise (fun a b => a < b)
        ((run cv max_size (construct reads color_space) ops).1.map (fun f => f.frame_number)) ∧
      (run cv max_size (construct reads color_space) ops).1.map (fun f => f.frame_number) =
        (List.range (run cv max_size (construct reads color_space) ops).2.frames_processed_).map
          (fun n : Nat => (n : Int)) ∧
      (∀ (s : State K) (clk : Clock),
        (capture_frame cv clk (reset_performance_counters s)).1.frame_number = 0) := by
  have hinv := engine_run_inv cv max_size (construct reads color_space : State K) (le_refl _) ops
    (by
      have : (construct reads color_space : State K).frames_processed_ = 0 := rfl
      rw [this]
      omega)
  obtain ⟨_, hle, h3⟩ := hinv
  obtain ⟨_, hnum⟩ := h3 hno
  have h0 : (construct reads color_space : State K).frames_processed_ = 0 := rfl
  rw [h0] at hnum hle
  simp only [Nat.sub_zero, Nat.zero_add] at hnum hle
  have heq : (run cv max_size (construct reads color_space) ops).1.map (fun f => f.frame_number) =
      (List.range (run cv max_size (construct reads color_space) ops).2.frames_processed_).map
        (fun n : Nat => (n : Int)) := by
    rw [hnum, List.range_eq_range']
    apply List.map_congr_left
    intro n hn
    have hn1 : n < (run cv max_size (construct reads color_space) ops).2.frames_processed_ := by
      have := List.mem_range'_1.mp hn
      omega
    exact toInt32_eq (by omega)
  refine ⟨?_, heq, ?_⟩
  · rw [heq, List.pairwise_map]
    exact (List.pairwise_lt_range _).imp (fun h => Int.ofNat_lt.mpr h)
  · intro s clk
    have h : (capture_frame cv clk (reset_performance_counters s)).1.frame_number =
        toInt32 (reset_performance_counters s).frames_processed_ := by
      by_cases hf : captureFails (reset_performance_counters s)
      · exact (capture_frame_failure cv clk _ hf).2.2.2
      · exact (capture_frame_success cv clk _ hf).2.2.2
    rw [h]
    rfl

end Generic

/-- C13 at a concrete engine over the rationals: after the device is opened
and two captures succeed, the third read fails; the capture returns an
invalid record and frames_dropped goes from 0 to 1. -/
theorem C13_capture_frame_counters_witness :
    (capture_frame cvPlain ⟨0, 0⟩
        (run cvPlain 9223372036854775807 (construct thirdReadFails.camera_.reads 4 : State ℚ)
          [Op.initialize_camera true, Op.capture_frame ⟨0, 0⟩,
            Op.capture_frame ⟨0, 0⟩]).2).1.is_valid = false ∧
      (capture_frame cvPlain ⟨0, 0⟩
        (run cvPlain 9223372036854775807 (construct thirdReadFails.camera_.reads 4 : State ℚ)
          [Op.initialize_camera true, Op.capture_frame ⟨0, 0⟩,
            Op.capture_frame ⟨0, 0⟩]).2).2.frames_dropped_ =
        (run cvPlain 9223372036854775807 (construct thirdReadFails.camera_.reads 4 : State ℚ)
          [Op.initialize_camera true, Op.capture_frame ⟨0, 0⟩,
            Op.capture_frame ⟨0, 0⟩]).2.frames_dropped_ + 1 :=
  (C13_capture_frame_counters cvPlain 9223372036854775807 thirdReadFails.camera_.reads 4
    [Op.initialize_camera true, Op.capture_frame ⟨0, 0⟩, Op.capture_frame ⟨0, 0⟩]
    (by decide) _ rfl ⟨0, 0⟩).1 (by unfold captureFails; decide)

/-- C14 as stated fails: a capture, reset_performance_counters and a second
capture return two records both numbered 0; and from 2^31 - 1 processed
frames two captures are numbered 2147483647 and then -2147483648. -/
theorem C14_reset_restarts_numbering_counterexample :
    (run cvPlain 9223372036854775807 (construct (fun _ => (false, Mat.nil)) 4 : State ℚ)
        [Op.capture_frame ⟨0, 0⟩, Op.reset_performance_counters,
          Op.capture_frame ⟨0, 0⟩]).1.map (fun f => f.frame_number) = [0, 0] ∧
      (capture_seq cvPlain (fun _ => ⟨0, 0⟩) 2 0 processedAtIntMax).1.map
          (fun f => f.frame_number) = [2147483647, -2147483648] := by
  decide

/-- C14 at a concrete call sequence over the rationals: a device is opened,
then a capture, a batch of four and another capture, with a reconfiguration
in between. -/
theorem C14_frame_numbers_increase_witness :
    List.Pairwise (fun a b => a < b)
      ((run cvPlain 9223372036854775807 (construct thirdReadFails.camera_.reads 4 : State ℚ)
        [Op.initialize_camera true, Op.capture_frame ⟨0, 0⟩, Op.capture_batch (fun _ => ⟨0, 0⟩) 4,
          Op.configure thirdReadFails.config_, Op.capture_frame ⟨5, 1⟩]).1.map
        (fun f => f.frame_number)) :=
  (C14_frame_numbers_increase cvPlain 9223372036854775807 thirdReadFails.camera_.reads 4
    [Op.initialize_camera true, Op.capture_frame ⟨0, 0⟩, Op.capture_batch (fun _ => ⟨0, 0⟩) 4,
      Op.configure thirdReadFails.config_, Op.capture_frame ⟨5, 1⟩]
    (by simp) (by decide)).1

end Webcam

/-! ## Claim on both performance trackers -/

/-- C8: for every biosensor processor state, reset_performance_counters gives
get_packets_processed() = 0 and get_average_processing_time_ms() = 0 and
leaves config_, filter_coefficients_ and filter_state_ as they were; for every
video engine state it gives frames_processed = 0 and
average_frame_time_ms = 0 and leaves config_, the clock offset, the retained
previous frame and the device as they were. -/
theorem C8_reset_performance_counters {K : Type} [LinearOrderedField K]
    (s : Shimmer.State K) (w : Webcam.State K) :
    (Shimmer.get_packets_processed (Shimmer.reset_performance_counters s) = 0 ∧
        Shimmer.get_average_processing_time_ms (Shimmer.reset_performance_counters s) = 0 ∧
        (Shimmer.reset_performance_counters s).config_ = s.config_ ∧
        (Shimmer.reset_performance_counters s).filter_coefficients_ = s.filter_coefficients_ ∧
        (Shimmer.reset_performance_counters s).filter_state_ = s.filter_state_) ∧
      ((Webcam.get_performance_metrics (Webcam.reset_performance_counters w)).frames_processed = 0 ∧
        (Webcam.get_performance_metrics
          (Webcam.reset_performance_counters w)).average_frame_time_ms = 0 ∧
        (Webcam.reset_performance_counters w).config_ = w.config_ ∧
        (Webcam.reset_performance_counters w).master_clock_offset_ms_ =
          w.master_clock_offset_ms_ ∧
        (Webcam.reset_performance_counters w).previous_frame_ = w.previous_frame_ ∧
        (Webcam.reset_performance_counters w).camera_ = w.camera_) := by
  refine ⟨⟨rfl, ?_, rfl, rfl, rfl⟩, ⟨rfl, ?_, rfl, rfl, rfl, rfl⟩⟩
  · simp [Shimmer.get_average_processing_time_ms, Shimmer.reset_performance_counters]
  · simp [Webcam.get_performance_metrics, Webcam.reset_performance_counters]

end Bucika
